import Mathlib

/-!
Verification development for the vnode / block-tracking core of a Vue-3-style
renderer runtime (sources: `packages/runtime-core/src/vnode.ts`,
`packages/runtime-core/src/apiCreateApp.ts`, `packages/shared/src/shapeFlags.ts`,
and the shared class/style normalization helpers).

The embedding is a shallow one:

* JavaScript values that can live in a props record are modelled by `PVal`.
  Reference identity of objects, arrays and functions is modelled by a numeric
  tag; `===` is `jsEq`, truthiness is `truthy`, and `Array.prototype.includes`
  uses SameValueZero (`svzEq`).
* JavaScript objects used as property maps are ordered association lists
  (`ObjMap`): `setKey` keeps the original position of an existing key and
  appends new keys, which is exactly the enumeration-order behaviour of plain
  string-keyed JS objects.
* VNodes live in a heap (`World.heap`), indexed by allocation order; a vnode
  "reference" is its heap index, so reference identity is index equality and
  field mutation is a heap update, exactly like the mutable records of the
  source.
* The module-level mutable state of `vnode.ts` (`blockStack`, `currentBlock`,
  `isBlockTreeEnabled`, and the lexical `currentRenderingInstance` /
  `currentScopeId`) is carried in `World`.  `currentBlock` always aliases the
  top of `blockStack` in the source, so it is represented as a derived view of
  the stack top.  Collecting arrays carry an identity tag (`nextArrId`) so that
  array identity (e.g. the shared frozen `EMPTY_ARR` sentinel, tag 0) is
  expressible.
* `__DEV__` is true (the development diagnostics of the source are part of the
  spec), `__COMPAT__` and the arguments transformer are absent/undefined, and
  warnings are recorded in `World.warnings`.
* The mutually recursive construction functions are defined with an explicit
  `fuel` argument (JS recursion is unbounded; the actual recursion depth of
  every run considered here is tiny, and every theorem supplies enough fuel).
-/

set_option maxHeartbeats 1000000

/-- JavaScript values as they appear in props records, keys and refs.
Objects (`obj`), arrays (`arr`), functions (`fn`) and reactivity refs
(`refObj`) carry a numeric identity tag modelling reference identity. -/
inductive PVal : Type where
  | undef
  | nul
  | boolV (b : Bool)
  | str (s : String)
  | num (n : Int)
  | nan
  | sym (id : Nat)
  | fn (id : Nat)
  | arr (id : Nat) (vs : List PVal)
  | obj (id : Nat) (kvs : List (String × PVal))
  | refObj (id : Nat)
deriving Inhabited

/-- JavaScript strict equality `===` on `PVal` (`NaN === NaN` is false;
objects, arrays, functions and refs compare by identity tag). -/
def jsEq : PVal → PVal → Bool
  | .undef, .undef => true
  | .nul, .nul => true
  | .boolV a, .boolV b => a == b
  | .str a, .str b => a == b
  | .num a, .num b => a == b
  | .sym a, .sym b => a == b
  | .fn a, .fn b => a == b
  | .arr a _, .arr b _ => a == b
  | .obj a _, .obj b _ => a == b
  | .refObj a, .refObj b => a == b
  | _, _ => false

/-- SameValueZero, as used by `Array.prototype.includes` (`NaN` matches `NaN`). -/
def svzEq : PVal → PVal → Bool
  | .nan, .nan => true
  | a, b => jsEq a b

/-- JavaScript truthiness. -/
def truthy : PVal → Bool
  | .undef => false
  | .nul => false
  | .nan => false
  | .boolV b => b
  | .str s => s ≠ ""
  | .num n => n ≠ 0
  | _ => true

def isStringP : PVal → Bool
  | .str _ => true
  | _ => false

def isArrayP : PVal → Bool
  | .arr _ _ => true
  | _ => false

/-- `isObject` from `@vue/shared`: non-null values of type `object`. -/
def isObjectP : PVal → Bool
  | .arr _ _ => true
  | .obj _ _ => true
  | .refObj _ => true
  | _ => false

def isFunctionP : PVal → Bool
  | .fn _ => true
  | _ => false

/-- `isRef` from `@vue/reactivity` (the reactivity system is an external
collaborator; a ref is just an opaque tagged object here). -/
def isRefP : PVal → Bool
  | .refObj _ => true
  | _ => false

/-- JS `ToInt32`: the unsigned 32-bit residue of a number. -/
def toU32 (i : Int) : Nat := (i % 4294967296).toNat

/-- Back from the unsigned 32-bit residue to the signed JS 32-bit integer. -/
def ofU32 (n : Nat) : Int :=
  if n < 2147483648 then (n : Int) else (n : Int) - 4294967296

/-- JS bitwise `|` (ToInt32 of both operands, then bitwise or). -/
def jsOr (a b : Int) : Int := ofU32 (Nat.lor (toU32 a) (toU32 b))

/-- JS bitwise `&`. -/
def jsAnd (a b : Int) : Int := ofU32 (Nat.land (toU32 a) (toU32 b))

/-- JS `String.prototype.trim` on the character list. -/
def jsTrimList (cs : List Char) : List Char :=
  ((cs.dropWhile Char.isWhitespace).reverse.dropWhile Char.isWhitespace).reverse

/-- JS `String.prototype.trim`. -/
def jsTrim (s : String) : String := String.mk (jsTrimList s.toList)

/-- Ordered string-keyed record, with JS object key-enumeration semantics. -/
abbrev ObjMap := List (String × PVal)

/-- Property lookup: first (i.e. unique, for well-formed objects) occurrence. -/
def getKey : ObjMap → String → Option PVal
  | [], _ => none
  | (k', v) :: rest, k => if k' = k then some v else getKey rest k

/-- Property assignment `m[k] = v`: overwrites in place, keeping the original
enumeration position of an existing key, and appends a new key at the end. -/
def setKey : ObjMap → String → PVal → ObjMap
  | [], k, v => [(k, v)]
  | (k', v') :: rest, k, v =>
      if k' = k then (k', v) :: rest else (k', v') :: setKey rest k v

/-- `for (key in src) dst[key] = src[key]` over an `ObjMap`. -/
def setAll (m : ObjMap) (src : ObjMap) : ObjMap :=
  src.foldl (fun acc kv => setKey acc kv.1 kv.2) m

/-- `isOn` from `@vue/shared`.  Modelled from the spec: the recognized
handler-naming convention is `/^on[^a-z]/` — the key starts with `on` and its
third character is not a lowercase ASCII letter. -/
def isOn (key : String) : Bool :=
  match key.toList with
  | 'o' :: 'n' :: c :: _ => !c.isLower
  | _ => false

/-- `normalizeClass` (shared helpers): recursively flattens strings, arrays
and `{name: truthyFlag}` objects into one space-joined, trimmed string. -/
def normalizeClass : PVal → String
  | .str s => jsTrim s
  | .arr _ vs => jsTrim (normClassList vs)
  | .obj _ kvs => jsTrim (normClassObj kvs)
  | _ => ""
where
  /-- the array loop of `normalizeClass`: each normalized element that is a
  non-empty string is appended followed by a space. -/
  normClassList : List PVal → String
  | [] => ""
  | v :: rest =>
      let n := normalizeClass v
      (if n ≠ "" then n ++ " " else "") ++ normClassList rest
  /-- the object loop of `normalizeClass`: keys with truthy values are kept. -/
  normClassObj : List (String × PVal) → String
  | [] => ""
  | (name, v) :: rest =>
      (if truthy v then name ++ " " else "") ++ normClassObj rest

/-- Does `*/` occur somewhere in the remaining characters?  (The comment regex
`/\/\*[^]*?\*\//` only matches terminated comments.) -/
def hasCommentEnd : List Char → Bool
  | '*' :: '/' :: _ => true
  | _ :: rest => hasCommentEnd rest
  | [] => false

mutual

/-- `cssText.replace(styleCommentRE, '')`: remove every terminated
`/* ... */` comment, non-greedily, scanning left to right. -/
def stripStyleComments : List Char → List Char
  | [] => []
  | '/' :: '*' :: rest =>
      if hasCommentEnd rest then stripAfterComment rest
      else '/' :: '*' :: stripStyleComments rest
  | c :: rest => c :: stripStyleComments rest

/-- Drop characters up to and including the first `*/`, then keep stripping. -/
def stripAfterComment : List Char → List Char
  | '*' :: '/' :: rest => stripStyleComments rest
  | _ :: rest => stripAfterComment rest
  | [] => []

end

/-- The negative lookahead `(?![^(]*\))` of `listDelimiterRE` *matches* (so the
`;` is NOT a delimiter) when a `)` occurs in the remainder before any `(`. -/
def closeParenAhead : List Char → Bool
  | [] => false
  | '(' :: _ => false
  | ')' :: _ => true
  | _ :: rest => closeParenAhead rest

/-- `cssText.split(listDelimiterRE)`: split on `;` except inside `(...)`. -/
def splitStyleItems : List Char → List Char → List String
  | [], cur => [String.mk cur.reverse]
  | ';' :: rest, cur =>
      if closeParenAhead rest then splitStyleItems rest (';' :: cur)
      else String.mk cur.reverse :: splitStyleItems rest []
  | c :: rest, cur => splitStyleItems rest (c :: cur)

/-- `item.split(propertyDelimiterRE)` (regex `/:([^]+)/`): split at the first
`:` that is followed by at least one character; the greedy capture takes the
whole remainder as the value. -/
def splitFirstColon : List Char → Option (List Char × List Char)
  | [] => none
  | ':' :: rest => if rest.isEmpty then none else some ([], rest)
  | c :: rest => (splitFirstColon rest).map (fun kv => (c :: kv.1, kv.2))

/-- `parseStringStyle` (shared helpers): comments removed, items split on
top-level `;`, each non-empty item split at its first `:` into a trimmed
key/value pair. -/
def parseStringStyle (cssText : String) : ObjMap :=
  (splitStyleItems (stripStyleComments cssText.toList) []).foldl
    (fun ret item =>
      if item ≠ "" then
        match splitFirstColon item.toList with
        | some (k, v) => setKey ret (jsTrim (String.mk k)) (.str (jsTrim (String.mk v)))
        | none => ret
      else ret)
    []

/-- `normalizeStyle` (shared helpers).  Arrays are flattened into a fresh
normalized object (later entries winning per declared property, strings being
parsed with `parseStringStyle`); strings and objects are returned as-is;
anything else is `undefined`.  The fresh result object carries identity tag 0
(its identity is never consulted by the modelled code). -/
def normalizeStyle : PVal → PVal
  | .arr _ vs => .obj 0 (normStyleList vs [])
  | .str s => .str s
  | .obj id kvs => .obj id kvs
  | .refObj id => .refObj id
  | _ => .undef
where
  /-- the array loop of `normalizeStyle`: each item is parsed (strings) or
  recursively normalized, and its entries copied into the accumulator. -/
  normStyleList : List PVal → ObjMap → ObjMap
  | [], acc => acc
  | item :: rest, acc =>
      let normalized : PVal :=
        match item with
        | .str s => .obj 0 (parseStringStyle s)
        | it => normalizeStyle it
      let acc :=
        match normalized with
        | .obj _ kvs => setAll acc kvs
        | _ => acc
      normStyleList rest acc

/-- A props record.  `reactive` models `isProxy(props)` (the reactivity system
is an external collaborator) and `internalKey` models the non-enumerable
`__vInternal` marker; both trigger the defensive copy in
`guardReactiveProps`. -/
structure Props where
  reactive : Bool := false
  internalKey : Bool := false
  entries : ObjMap := []
deriving Inhabited

/-- `[].concat(existing, incoming)`: one level of array spreading, fresh
result array (identity tag 0; never compared by the modelled code). -/
def concatVals (a b : PVal) : PVal :=
  .arr 0
    ((match a with | .arr _ vs => vs | x => [x]) ++
     (match b with | .arr _ vs => vs | x => [x]))

/-- One step of the `mergeProps` inner loop: fold a single `key: value` entry
of the mapping being merged into the accumulated result. -/
def mergeOne (ret : ObjMap) (kv : String × PVal) : ObjMap :=
  let key := kv.1
  let v := kv.2
  if key = "class" then
    let old := (getKey ret "class").getD .undef
    if jsEq old v then ret
    else setKey ret "class" (.str (normalizeClass (.arr 0 [old, v])))
  else if key = "style" then
    let old := (getKey ret "style").getD .undef
    setKey ret "style" (normalizeStyle (.arr 0 [old, v]))
  else if isOn key then
    let existing := (getKey ret key).getD .undef
    let incoming := v
    if truthy incoming && !jsEq existing incoming &&
        !(isArrayP existing &&
          (match existing with | .arr _ vs => vs.any (svzEq · incoming) | _ => false)) then
      setKey ret key (if truthy existing then concatVals existing incoming else incoming)
    else ret
  else if key ≠ "" then setKey ret key v
  else ret

/-- `mergeProps(...args)` from `vnode.ts`: fold the property mappings left to
right into a fresh plain record. -/
def mergeProps (args : List Props) : Props :=
  { entries := args.foldl (fun ret p => p.entries.foldl mergeOne ret) [] }

namespace ShapeFlags

/-- `shapeFlags.ts`: bit taxonomy of vnode kinds (JS numbers; `Int` with the
usual two's-complement bitwise operations). -/
def ELEMENT : Int := 1

def FUNCTIONAL_COMPONENT : Int := 2

def STATEFUL_COMPONENT : Int := 4

def TEXT_CHILDREN : Int := 8

def ARRAY_CHILDREN : Int := 16

def SLOTS_CHILDREN : Int := 32

def TELEPORT : Int := 64

def SUSPENSE : Int := 128

def COMPONENT_SHOULD_KEEP_ALIVE : Int := 256

def COMPONENT_KEPT_ALIVE : Int := 512

def COMPONENT : Int := jsOr STATEFUL_COMPONENT FUNCTIONAL_COMPONENT

end ShapeFlags

namespace PatchFlags

/-- Modelled from the spec: the patch-flag bit set of `@vue/shared`
(`patchFlags.ts` is not part of the provided sources).  Positive values are
OR-combined bits describing what must be re-diffed; `HOISTED` (-1) is the
fully-static sentinel and `BAIL` (-2) the full-diff sentinel, both negative
as §4.1 requires.  The canonical bit positions are used. -/
def TEXT : Int := 1

def CLASS : Int := 2

def STYLE : Int := 4

def PROPS : Int := 8

def FULL_PROPS : Int := 16

def HYDRATE_EVENTS : Int := 32

def STABLE_FRAGMENT : Int := 64

def KEYED_FRAGMENT : Int := 128

def UNKEYED_FRAGMENT : Int := 256

def NEED_PATCH : Int := 512

def DYNAMIC_SLOTS : Int := 1024

def HOISTED : Int := -1

def BAIL : Int := -2

end PatchFlags

/-- Resolved vnode type (`VNodeTypes` after `_createVNode` normalization):
a tag string, one of the `Symbol.for` markers (`Text`/`Comment`/`Static`/
`Fragment`), the Teleport / Suspense implementations, or a component
(options object or function, identified by reference tag). -/
inductive VType : Type where
  | el (tag : String)
  | textT
  | commentT
  | staticT
  | fragmentT
  | teleportT
  | suspenseT
  | objComp (id : Nat)
  | funcComp (id : Nat)
deriving DecidableEq, Repr, Inhabited

/-- The raw `type` argument accepted by `_createVNode`: a resolved type, a
class-style component wrapper (whose `__vccOpts` is the options object with
the same tag), an existing vnode (heap reference), or a falsy /
`NULL_DYNAMIC_COMPONENT` value. -/
inductive RawType : Type where
  | ofType (t : VType)
  | classComp (id : Nat)
  | vnodeRef (vid : Nat)
  | nullType
deriving DecidableEq, Repr, Inhabited

/-- The shape-flag cascade of `_createVNode`: string → ELEMENT, Suspense,
Teleport, object → STATEFUL_COMPONENT, function → FUNCTIONAL_COMPONENT,
anything else (the marker symbols) → 0. -/
def shapeFlagOfType : VType → Int
  | .el _ => ShapeFlags.ELEMENT
  | .suspenseT => ShapeFlags.SUSPENSE
  | .teleportT => ShapeFlags.TELEPORT
  | .objComp _ => ShapeFlags.STATEFUL_COMPONENT
  | .funcComp _ => ShapeFlags.FUNCTIONAL_COMPONENT
  | _ => 0

/-- The default value of `createBaseVNode`'s `shapeFlag` parameter:
`type === Fragment ? 0 : ShapeFlags.ELEMENT`. -/
def defaultShapeFlagFor (t : VType) : Int :=
  if t = .fragmentT then 0 else ShapeFlags.ELEMENT

/-- A normalized ref atom `{i, r, k, f}` (`VNodeNormalizedRefAtom`). -/
structure RefAtom where
  i : Option Nat
  r : PVal
  k : Option PVal
  f : Bool
deriving Inhabited

/-- A normalized vnode ref: a single atom, an array of refs (ref merging), or
the raw non-string/non-ref/non-function value the source casts through. -/
inductive NRef : Type where
  | atom (a : RefAtom)
  | many (xs : List NRef)
  | raw (v : PVal)
deriving Inhabited

/-- Children value of a vnode: `null`/`undefined`, a boolean, a string, a
number, another vnode (by heap reference), an array, a function child
(opaque reference), or the `{ default: fn, _ctx }` slots object that
`normalizeChildren` builds from a function child. -/
inductive ChildVal : Type where
  | nul
  | boolV (b : Bool)
  | str (s : String)
  | num (n : Int)
  | vnode (vid : Nat)
  | arr (cs : List ChildVal)
  | fnVal (id : Nat)
  | defaultSlotObj (fn : Nat) (ctx : Option Nat)
deriving Inhabited

/-- `dynamicChildren`: `null`, or an array of vnode references.  The array
identity tag distinguishes the shared frozen `EMPTY_ARR` sentinel (tag 0)
from lists collected by a block (tags ≥ 1). -/
inductive DynChildren : Type where
  | nullDC
  | arrDC (aid : Nat) (elems : List Nat)
deriving Inhabited

/-- JS truthiness of a children value (`if (children)` fast path). -/
def childTruthy : ChildVal → Bool
  | .nul => false
  | .boolV b => b
  | .str s => s ≠ ""
  | .num n => n ≠ 0
  | _ => true

def isStrChild : ChildVal → Bool
  | .str _ => true
  | _ => false

/-- `String(children)` for the text fast paths. -/
def jsStringOfChild : ChildVal → String
  | .str s => s
  | .num n => toString n
  | .boolV b => if b then "true" else "false"
  | _ => ""

/-- The flat vnode record (the mutable object literal built by
`createBaseVNode` / `cloneVNode`).  Vnode-valued fields hold heap references;
host handles (`el`, `anchor`, `target`, `targetAnchor`), directive/transition
/component/suspense back-references and the app context are opaque numeric
references.  `memo` models the presence of the `v-memo` array. -/
structure VNodeData where
  type : VType := .commentT
  props : Option Props := none
  key : PVal := .nul
  ref : Option NRef := none
  scopeId : Option String := none
  slotScopeIds : Option (List String) := none
  children : ChildVal := .nul
  component : Option Nat := none
  dirs : Option Nat := none
  transition : Option Nat := none
  el : Option Nat := none
  anchor : Option Nat := none
  target : Option Nat := none
  targetAnchor : Option Nat := none
  staticCount : Int := 0
  suspense : Option Nat := none
  ssContent : Option Nat := none
  ssFallback : Option Nat := none
  shapeFlag : Int := 0
  patchFlag : Int := 0
  dynamicProps : Option (List String) := none
  dynamicChildren : DynChildren := .nullDC
  appContext : Option Nat := none
  ctx : Option Nat := none
  memo : Bool := false
deriving Inhabited

/-- The kinds of diagnostics the modelled code can emit through `warn`. -/
inductive WarnKind : Type where
  | invalidKey
  | invalidVNodeType
  | appAlreadyMounted
  | containerOccupied
  | unmountNotMounted
deriving DecidableEq, Repr, Inhabited

/-- The module-level state of `vnode.ts`: the vnode heap (reference = index),
the block stack (`none` frame = the `null` pushed by `openBlock(true)`;
`some (aid, elems)` = a collecting array with identity tag `aid`), the fresh
array-tag supply, the `isBlockTreeEnabled` counter, the lexical
`currentRenderingInstance` / `currentScopeId`, and the emitted warnings.
The stack top is the list head; `currentBlock` aliases the top frame. -/
structure World where
  heap : List VNodeData := []
  blockStack : List (Option (Nat × List Nat)) := []
  nextArrId : Nat := 1
  isBlockTreeEnabled : Int := 1
  ctxInstance : Option Nat := none
  scopeId : Option String := none
  warnings : List WarnKind := []
deriving Inhabited

def initWorld : World := {}

def World.getNode (w : World) (i : Nat) : VNodeData :=
  w.heap.getD i default

def World.modifyNode (w : World) (i : Nat) (f : VNodeData → VNodeData) : World :=
  { w with heap := w.heap.set i (f (w.heap.getD i default)) }

/-- Allocate a fresh vnode object; its reference is its heap index. -/
def World.alloc (w : World) (d : VNodeData) : Nat × World :=
  (w.heap.length, { w with heap := w.heap ++ [d] })

def World.warn (w : World) (k : WarnKind) : World :=
  { w with warnings := w.warnings ++ [k] }

/-- `currentBlock`: the top frame of the block stack, or `null`. -/
def currentBlock (w : World) : Option (Nat × List Nat) :=
  match w.blockStack with
  | [] => none
  | f :: _ => f

/-- `openBlock(disableTracking)`: push a fresh collecting array (or `null`
for a loop-fragment block) and make it current. -/
def openBlock (disableTracking : Bool := false) (w : World) : World :=
  if disableTracking then { w with blockStack := none :: w.blockStack }
  else
    { w with
      blockStack := some (w.nextArrId, []) :: w.blockStack
      nextArrId := w.nextArrId + 1 }

/-- `closeBlock()`: pop; `currentBlock` becomes the new top (or `null`). -/
def closeBlock (w : World) : World :=
  { w with blockStack := w.blockStack.tail }

/-- `setBlockTracking(value)`: signed increment of the enable counter. -/
def setBlockTracking (value : Int) (w : World) : World :=
  { w with isBlockTreeEnabled := w.isBlockTreeEnabled + value }

/-- `currentBlock.push(vnode)`: append to the (open) top collecting array. -/
def pushCurrentBlock (vid : Nat) (w : World) : World :=
  match w.blockStack with
  | some (aid, l) :: rest => { w with blockStack := some (aid, l ++ [vid]) :: rest }
  | _ => w

/-- `currentBlock[currentBlock.indexOf(old)] = new`: replace the first
occurrence (reference identity).  When `old` is absent, `indexOf` yields -1
and the assignment creates an out-of-range property, leaving the array's
elements unchanged. -/
def replaceFirst : List Nat → Nat → Nat → List Nat
  | [], _, _ => []
  | x :: rest, a, b => if x = a then b :: rest else x :: replaceFirst rest a b

def replaceInCurrentBlock (oldId newId : Nat) (w : World) : World :=
  match w.blockStack with
  | some (aid, l) :: rest =>
      { w with blockStack := some (aid, replaceFirst l oldId newId) :: rest }
  | _ => w

/-- `normalizeKey({key})`: `key != null ? key : null`. -/
def normalizeKey (p : Props) : PVal :=
  match getKey p.entries "key" with
  | some v => match v with
      | .nul => .nul
      | .undef => .nul
      | v => v
  | none => .nul

/-- `normalizeRef({ref, ref_key, ref_for})`: numbers become strings; a
string / ref / function becomes a `{i, r, k, f}` atom bound to the current
rendering instance; other non-null values pass through raw. -/
def normalizeRef (ctx : Option Nat) (p : Props) : Option NRef :=
  let ref0 := (getKey p.entries "ref").getD .undef
  let ref : PVal := match ref0 with
    | .num n => .str (toString n)
    | v => v
  match ref with
  | .nul => none
  | .undef => none
  | r =>
      if isStringP r || isRefP r || isFunctionP r then
        some (.atom
          { i := ctx
            r := r
            k := getKey p.entries "ref_key"
            f := truthy ((getKey p.entries "ref_for").getD .undef) })
      else some (.raw r)

/-- `guardReactiveProps`: reactive proxies and already-internal objects are
defensively copied (`extend({}, props)`; the copy is a plain object and the
non-enumerable internal marker is not carried over). -/
def guardReactiveProps (p : Props) : Props :=
  if p.reactive || p.internalKey then { entries := p.entries } else p

/-- `props && normalizeKey(props)`: the `key` field of a fresh vnode literal. -/
def keyOfProps : Option Props → PVal
  | some p => normalizeKey p
  | none => .nul

/-- `props && normalizeRef(props)`: the `ref` field of a fresh vnode literal. -/
def refOfProps (ctx : Option Nat) : Option Props → Option NRef
  | some p => normalizeRef ctx p
  | none => none

/-- `extraProps ? mergeProps(props || {}, extraProps) : props` in `cloneVNode`. -/
def cloneMergedProps (vprops extraProps : Option Props) : Option Props :=
  match extraProps with
  | some ep => some (mergeProps [vprops.getD {}, ep])
  | none => vprops

/-- The `ref` expression of the `cloneVNode` literal: with extra ref and
`mergeRef`, concatenate onto the existing ref (array semantics); with extra
ref only, replace; otherwise keep. -/
def cloneRefMerge (ctx : Option Nat) (vref : Option NRef) (extraProps : Option Props)
    (mergeRef : Bool) : Option NRef :=
  match extraProps with
  | some ep =>
      if truthy ((getKey ep.entries "ref").getD .undef) then
        if mergeRef then
          match vref with
          | some r =>
              some (match r with
                | .many xs => .many (xs ++ [(normalizeRef ctx ep).getD (.raw .undef)])
                | x => .many [x, (normalizeRef ctx ep).getD (.raw .undef)])
          | none => normalizeRef ctx ep
        else normalizeRef ctx ep
      else vref
  | none => vref

/-- The `patchFlag` expression of the `cloneVNode` literal: extra props force
`FULL_PROPS` (replacing the hoisted sentinel outright) except on fragments. -/
def clonePatchFlag (vtype : VType) (vpf : Int) (extraProps : Option Props) : Int :=
  match extraProps with
  | some _ =>
      if vtype = .fragmentT then vpf
      else if vpf = PatchFlags.HOISTED then PatchFlags.FULL_PROPS
      else jsOr vpf PatchFlags.FULL_PROPS
  | none => vpf

mutual

/-- `createBaseVNode` (`vnode.ts`): build the vnode literal, apply either the
full children normalization or the compiled fast path, emit the NaN-key
diagnostic, and register the node in the open block when tracking applies.
`fuel` bounds the (in practice tiny) recursion depth through
`normalizeChildren` / `createTextVNode`. -/
def createBaseVNode (fuel : Nat) (type : VType) (props : Option Props)
    (children : ChildVal) (patchFlag : Int) (dynamicProps : Option (List String))
    (shapeFlag : Int) (isBlockNode : Bool) (needFullChildrenNormalization : Bool)
    (w : World) : Nat × World :=
  match fuel with
  | 0 => (0, w)
  | fuel + 1 =>
    let d : VNodeData :=
      { type := type
        props := props
        key := keyOfProps props
        ref := refOfProps w.ctxInstance props
        scopeId := w.scopeId
        slotScopeIds := none
        children := children
        component := none
        suspense := none
        ssContent := none
        ssFallback := none
        dirs := none
        transition := none
        el := none
        anchor := none
        target := none
        targetAnchor := none
        staticCount := 0
        shapeFlag := shapeFlag
        patchFlag := patchFlag
        dynamicProps := dynamicProps
        dynamicChildren := .nullDC
        appContext := none
        ctx := w.ctxInstance
        memo := false }
    let vw := w.alloc d
    let vid := vw.1
    let w := vw.2
    let w :=
      if needFullChildrenNormalization then
        -- (`SuspenseImpl.normalize` on suspense-shaped nodes belongs to the
        -- excluded Suspense collaborator and is not modelled)
        normalizeChildren fuel vid children w
      else if childTruthy children then
        w.modifyNode vid (fun n =>
          { n with shapeFlag := (jsOr n.shapeFlag
              (if isStrChild children then ShapeFlags.TEXT_CHILDREN
               else ShapeFlags.ARRAY_CHILDREN)) })
      else w
    -- validate key: only NaN fails `vnode.key === vnode.key`
    let w :=
      if jsEq (w.getNode vid).key (w.getNode vid).key then w
      else w.warn .invalidKey
    -- track vnode for block tree
    let w :=
      if 0 < w.isBlockTreeEnabled ∧ isBlockNode = false ∧ (currentBlock w).isSome ∧
          (0 < (w.getNode vid).patchFlag ∨ jsAnd shapeFlag ShapeFlags.COMPONENT ≠ 0) ∧
          (w.getNode vid).patchFlag ≠ PatchFlags.HYDRATE_EVENTS then
        pushCurrentBlock vid w
      else w
    (vid, w)

/-- `normalizeChildren(vnode, children)` (`vnode.ts`): classify the raw
children, set the children bit on the vnode's shape flag and store the
normalized children value. -/
def normalizeChildren (fuel : Nat) (vid : Nat) (children : ChildVal) (w : World) :
    World :=
  match fuel with
  | 0 => w
  | fuel + 1 =>
    let sf := (w.getNode vid).shapeFlag
    match children with
    | .nul =>
        w.modifyNode vid (fun n =>
          { n with children := .nul, shapeFlag := jsOr n.shapeFlag 0 })
    | .arr cs =>
        w.modifyNode vid (fun n =>
          { n with children := .arr cs
                   shapeFlag := jsOr n.shapeFlag ShapeFlags.ARRAY_CHILDREN })
    | .vnode cid =>
        -- typeof children === 'object'
        if jsAnd sf (jsOr ShapeFlags.ELEMENT ShapeFlags.TELEPORT) ≠ 0 then
          -- a vnode used as object children exposes no `default` slot:
          -- the early return leaves the vnode untouched
          w
        else
          -- slots branch; the `_ctx` expando the source attaches to the raw
          -- object is foreign to a vnode record and is not representable
          w.modifyNode vid (fun n =>
            { n with children := .vnode cid
                     shapeFlag := jsOr n.shapeFlag ShapeFlags.SLOTS_CHILDREN })
    | .defaultSlotObj f _ =>
        if jsAnd sf (jsOr ShapeFlags.ELEMENT ShapeFlags.TELEPORT) ≠ 0 then
          -- the source invokes the `default` slot function here; function
          -- bodies are opaque in this embedding and no claim exercises the
          -- element-with-slots corner, so it is left unevaluated
          w
        else
          -- no `_` slot flag and no internal marker: attach `_ctx`
          w.modifyNode vid (fun n =>
            { n with children := .defaultSlotObj f w.ctxInstance
                     shapeFlag := jsOr n.shapeFlag ShapeFlags.SLOTS_CHILDREN })
    | .fnVal f =>
        -- children = { default: children, _ctx: currentRenderingInstance }
        w.modifyNode vid (fun n =>
          { n with children := .defaultSlotObj f w.ctxInstance
                   shapeFlag := jsOr n.shapeFlag ShapeFlags.SLOTS_CHILDREN })
    | c =>
        -- strings, numbers, booleans: children = String(children)
        let s := jsStringOfChild c
        if jsAnd sf ShapeFlags.TELEPORT ≠ 0 then
          -- force teleport children into an array of one text vnode
          let tw := createTextVNode fuel s 0 w
          tw.2.modifyNode vid (fun n =>
            { n with children := .arr [.vnode tw.1]
                     shapeFlag := jsOr n.shapeFlag ShapeFlags.ARRAY_CHILDREN })
        else
          w.modifyNode vid (fun n =>
            { n with children := .str s
                     shapeFlag := jsOr n.shapeFlag ShapeFlags.TEXT_CHILDREN })

/-- `createTextVNode(text, flag)`; in this build `createVNode` is
`_createVNode` (the dev args transformer is undefined). -/
def createTextVNode (fuel : Nat) (text : String) (flag : Int) (w : World) :
    Nat × World :=
  match fuel with
  | 0 => (0, w)
  | fuel + 1 =>
    _createVNode fuel (.ofType .textT) none (.str text) flag none false w

/-- `_createVNode` (`vnode.ts`): falsy types fall back to Comment with a
diagnostic; an existing vnode as `type` is clone-and-merged (refs merged,
children normalized into the clone, the block slot of the original replaced
for component clones, `BAIL` forced); otherwise class components are
unwrapped, class/style props normalized, the shape flag computed, and
`createBaseVNode` called with full children normalization. -/
def _createVNode (fuel : Nat) (type : RawType) (props : Option Props)
    (children : ChildVal) (patchFlag : Int) (dynamicProps : Option (List String))
    (isBlockNode : Bool) (w : World) : Nat × World :=
  match fuel with
  | 0 => (0, w)
  | fuel + 1 =>
    let tw : RawType × World :=
      match type with
      | .nullType => (.ofType .commentT, w.warn .invalidVNodeType)
      | t => (t, w)
    let type := tw.1
    let w := tw.2
    match type with
    | .vnodeRef vid =>
        -- createVNode receiving an existing vnode (e.g. <component :is="vnode"/>)
        let cw := cloneVNode fuel vid props true w
        let cid := cw.1
        let w := cw.2
        let w := if childTruthy children then normalizeChildren fuel cid children w else w
        let w :=
          if 0 < w.isBlockTreeEnabled ∧ isBlockNode = false ∧ (currentBlock w).isSome then
            if jsAnd (w.getNode cid).shapeFlag ShapeFlags.COMPONENT ≠ 0 then
              replaceInCurrentBlock vid cid w
            else
              pushCurrentBlock cid w
          else w
        let w := w.modifyNode cid (fun n =>
          { n with patchFlag := jsOr n.patchFlag PatchFlags.BAIL })
        (cid, w)
    | t =>
        -- class component normalization
        let t : VType :=
          match t with
          | .classComp i => .objComp i
          | .ofType t0 => t0
          | _ => .commentT
        -- class & style normalization (reactive style objects belong to the
        -- external reactivity collaborator; `isProxy` is constantly false here)
        let props : Option Props :=
          match props with
          | none => none
          | some p =>
              let p := guardReactiveProps p
              let e := p.entries
              let e :=
                match getKey e "class" with
                | some klass =>
                    if truthy klass && !isStringP klass then
                      setKey e "class" (.str (normalizeClass klass))
                    else e
                | none => e
              let e :=
                match getKey e "style" with
                | some style =>
                    if isObjectP style then setKey e "style" (normalizeStyle style)
                    else e
                | none => e
              some { p with entries := e }
        let sf := shapeFlagOfType t
        createBaseVNode fuel t props children patchFlag dynamicProps sf isBlockNode
          true w

/-- `cloneVNode(vnode, extraProps, mergeRef)` (`vnode.ts`). -/
def cloneVNode (fuel : Nat) (vid : Nat) (extraProps : Option Props)
    (mergeRef : Bool) (w : World) : Nat × World :=
  match fuel with
  | 0 => (0, w)
  | fuel + 1 =>
    let v := w.getNode vid
    let mergedProps : Option Props := cloneMergedProps v.props extraProps
    -- __DEV__: hoisted nodes with array children get their children deep-cloned
    let cw : ChildVal × World :=
      if v.patchFlag = PatchFlags.HOISTED then
        match v.children with
        | .arr cs =>
            let r := deepCloneChildList fuel cs w
            (.arr r.1, r.2)
        | c => (c, w)
      else (v.children, w)
    let childrenVal := cw.1
    let ssc : Option Nat × World :=
      match v.ssContent with
      | some sid => let r := cloneVNode fuel sid none false cw.2; (some r.1, r.2)
      | none => (none, cw.2)
    let ssf : Option Nat × World :=
      match v.ssFallback with
      | some sid => let r := cloneVNode fuel sid none false ssc.2; (some r.1, r.2)
      | none => (none, ssc.2)
    -- (the recursive clones never touch `currentRenderingInstance`, so the
    -- ref normalization below reads the same lexical state as the source)
    let refv : Option NRef := cloneRefMerge w.ctxInstance v.ref extraProps mergeRef
    let pf : Int := clonePatchFlag v.type v.patchFlag extraProps
    let d : VNodeData :=
      { type := v.type
        props := mergedProps
        key := keyOfProps mergedProps
        ref := refv
        scopeId := v.scopeId
        slotScopeIds := v.slotScopeIds
        children := childrenVal
        target := v.target
        targetAnchor := v.targetAnchor
        staticCount := v.staticCount
        shapeFlag := v.shapeFlag
        patchFlag := pf
        dynamicProps := v.dynamicProps
        dynamicChildren := v.dynamicChildren
        appContext := v.appContext
        dirs := v.dirs
        transition := v.transition
        component := v.component
        suspense := v.suspense
        ssContent := ssc.1
        ssFallback := ssf.1
        el := v.el
        anchor := v.anchor
        ctx := v.ctx
        memo := false }
    ssf.2.alloc d

/-- `deepCloneVNode` (dev only, HMR of hoisted vnodes). -/
def deepCloneVNode (fuel : Nat) (vid : Nat) (w : World) : Nat × World :=
  match fuel with
  | 0 => (0, w)
  | fuel + 1 =>
    let r := cloneVNode fuel vid none false w
    let cid := r.1
    let w := r.2
    match (w.getNode vid).children with
    | .arr cs =>
        let r2 := deepCloneChildList fuel cs w
        (cid, r2.2.modifyNode cid (fun n => { n with children := .arr r2.1 }))
    | _ => (cid, w)

/-- `children.map(deepCloneVNode)`; non-vnode entries of a hoisted children
array pass through unchanged. -/
def deepCloneChildList (fuel : Nat) (cs : List ChildVal) (w : World) :
    List ChildVal × World :=
  match fuel with
  | 0 => (cs, w)
  | fuel + 1 =>
    match cs with
    | [] => ([], w)
    | c :: rest =>
        let hd : ChildVal × World :=
          match c with
          | .vnode i => let r := deepCloneVNode fuel i w; (.vnode r.1, r.2)
          | x => (x, w)
        let tl := deepCloneChildList fuel rest hd.2
        (hd.1 :: tl.1, tl.2)

end

/-- `createVNode` in this build: the vnode-args transformer is undefined, so
the dev wrapper is `_createVNode` itself. -/
def createVNode (fuel : Nat) (type : RawType) (props : Option Props := none)
    (children : ChildVal := .nul) (patchFlag : Int := 0)
    (dynamicProps : Option (List String) := none) (isBlockNode : Bool := false)
    (w : World) : Nat × World :=
  _createVNode fuel type props children patchFlag dynamicProps isBlockNode w

/-- `setupBlock(vnode)`: attach the current collecting array (or the frozen
`EMPTY_ARR` sentinel when the block was opened with tracking disabled, or
`null` when the enable counter is non-positive) as `dynamicChildren`, pop
the stack, and register the block root in the still-open parent block. -/
def setupBlock (vid : Nat) (w : World) : World :=
  let w := w.modifyNode vid (fun n =>
    { n with dynamicChildren :=
        if 0 < w.isBlockTreeEnabled then
          match currentBlock w with
          | some (aid, l) => .arrDC aid l
          | none => .arrDC 0 []
        else .nullDC })
  let w := closeBlock w
  if 0 < w.isBlockTreeEnabled ∧ (currentBlock w).isSome then
    pushCurrentBlock vid w
  else w

/-- `createElementBlock`: a block root built through `createBaseVNode`
(`isBlockNode = true`, no full children normalization). -/
def createElementBlock (fuel : Nat) (type : VType) (props : Option Props := none)
    (children : ChildVal := .nul) (patchFlag : Int := 0)
    (dynamicProps : Option (List String) := none) (shapeFlag : Option Int := none)
    (w : World) : Nat × World :=
  let r := createBaseVNode fuel type props children patchFlag dynamicProps
    (shapeFlag.getD (defaultShapeFlagFor type)) true false w
  (r.1, setupBlock r.1 r.2)

/-- `createBlock`: a block root built through `createVNode`
(`isBlockNode = true` prevents the block from tracking itself). -/
def createBlock (fuel : Nat) (type : RawType) (props : Option Props := none)
    (children : ChildVal := .nul) (patchFlag : Int := 0)
    (dynamicProps : Option (List String) := none) (w : World) : Nat × World :=
  let r := createVNode fuel type props children patchFlag dynamicProps true w
  (r.1, setupBlock r.1 r.2)

def isVNode : RawType → Bool
  | .vnodeRef _ => true
  | _ => false

/-- Component reference of a vnode type, for the HMR dirty-set lookup. -/
def typeComponentId : VType → Option Nat
  | .objComp i => some i
  | .funcComp i => some i
  | _ => none

/-- `isSameVNodeType(n1, n2)`: the dev-only HMR branch (a component type in
the dirty set) strips the keep-alive shape bits and forces `false`; otherwise
`n1.type === n2.type && n1.key === n2.key`.  Returns the result together
with the (possibly mutated) nodes. -/
def isSameVNodeType (hmrDirty : List Nat) (n1 n2 : VNodeData) :
    Bool × VNodeData × VNodeData :=
  let dirty : Bool :=
    match typeComponentId n2.type with
    | some i => hmrDirty.contains i
    | none => false
  if jsAnd n2.shapeFlag ShapeFlags.COMPONENT ≠ 0 ∧ dirty then
    (false,
     { n1 with shapeFlag := jsAnd n1.shapeFlag (-257) },
     { n2 with shapeFlag := jsAnd n2.shapeFlag (-513) })
  else (n1.type == n2.type && jsEq n1.key n2.key, n1, n2)

/-- `cloneIfMounted(child)`: reuse unmounted (and non-hoisted) or memoized
vnodes; clone otherwise. -/
def cloneIfMounted (fuel : Nat) (vid : Nat) (w : World) : Nat × World :=
  let c := w.getNode vid
  if (c.el = none ∧ c.patchFlag ≠ PatchFlags.HOISTED) ∨ c.memo then (vid, w)
  else cloneVNode fuel vid none false w

/-- `normalizeVNode(child)`: null/booleans become an empty Comment, arrays a
Fragment over a fresh copy of the array, vnodes go through `cloneIfMounted`,
strings/numbers become Text. -/
def normalizeVNode (fuel : Nat) (child : ChildVal) (w : World) : Nat × World :=
  match child with
  | .nul => createVNode fuel (.ofType .commentT) none .nul 0 none false w
  | .boolV _ => createVNode fuel (.ofType .commentT) none .nul 0 none false w
  | .arr cs => createVNode fuel (.ofType .fragmentT) none (.arr cs) 0 none false w
  | .vnode vid => cloneIfMounted fuel vid w
  | .str s => createVNode fuel (.ofType .textT) none (.str s) 0 none false w
  | .num n => createVNode fuel (.ofType .textT) none (.str (toString n)) 0 none false w
  | .fnVal _ => (0, w)
  | .defaultSlotObj _ _ => (0, w)

/-- Application handle state (`apiCreateApp.ts`): the fields of the `app`
object plus its closed-over `isMounted` flag.  The plugin/mixin/asset
registries and config live in the (opaque) app context and are not needed by
the mount/unmount claims. -/
structure AppRec where
  uid : Nat := 0
  rootComponent : VType := .objComp 0
  rootProps : Option Props := none
  contextId : Nat := 0
  isMounted : Bool := false
  container : Option Nat := none
  instanceRef : Option Nat := none
deriving Inhabited

/-- A host container: the private `__vue_app__` back-reference and, standing
in for the external renderer, the vnode currently rendered into it
(`none` = nothing rendered). -/
structure ContainerRec where
  vueApp : Option Nat := none
  rendered : Option Nat := none
deriving Inhabited

/-- The world of `apiCreateApp.ts`: the vnode world plus the allocated app
handles and host containers. -/
structure AppWorld where
  vw : World := {}
  apps : List AppRec := []
  containers : List ContainerRec := []
  nextUid : Nat := 0
deriving Inhabited

def AppWorld.getApp (aw : AppWorld) (a : Nat) : AppRec :=
  aw.apps.getD a default

def AppWorld.setApp (aw : AppWorld) (a : Nat) (f : AppRec → AppRec) : AppWorld :=
  { aw with apps := aw.apps.set a (f (aw.apps.getD a default)) }

def AppWorld.getContainer (aw : AppWorld) (c : Nat) : ContainerRec :=
  aw.containers.getD c default

def AppWorld.setContainer (aw : AppWorld) (c : Nat) (f : ContainerRec → ContainerRec) :
    AppWorld :=
  { aw with containers := aw.containers.set c (f (aw.containers.getD c default)) }

def AppWorld.warnA (aw : AppWorld) (k : WarnKind) : AppWorld :=
  { aw with vw := aw.vw.warn k }

/-- `createApp(rootComponent, rootProps)`: allocate a fresh app handle with a
fresh uid and a fresh context, not mounted.  (Non-function root components
are shallow-copied by the source; the copy carries the same options, so the
component reference is kept.  Plugin/mixin registration is out of scope of
the claims.) -/
def createApp (rootComponent : VType) (rootProps : Option Props) (aw : AppWorld) :
    Nat × AppWorld :=
  let aid := aw.apps.length
  (aid,
   { aw with
     apps := aw.apps ++
       [{ uid := aw.nextUid
          rootComponent := rootComponent
          rootProps := rootProps
          contextId := aw.nextUid }]
     nextUid := aw.nextUid + 1 })

/-- `app.mount(rootContainer)` (fresh render; the hydration collaborator is
external).  An unmounted app warns if the container already carries a
`__vue_app__` back-reference and then proceeds anyway: it builds the root
vnode, attaches the app context, renders (modelled by recording the vnode on
the container), marks the app mounted, records the container, and overwrites
the container's back-reference.  An already-mounted app only warns. -/
def mount (aid cid : Nat) (aw : AppWorld) : AppWorld :=
  let app := aw.getApp aid
  if app.isMounted = false then
    let aw :=
      if (aw.getContainer cid).vueApp.isSome then aw.warnA .containerOccupied
      else aw
    let r := createVNode 4 (.ofType app.rootComponent) app.rootProps .nul 0 none false aw.vw
    let vid := r.1
    let vw := r.2.modifyNode vid (fun n => { n with appContext := some app.contextId })
    let aw := { aw with vw := vw }
    -- render(vnode, rootContainer, isSVG)
    let aw := aw.setContainer cid (fun c => { c with rendered := some vid })
    let aw := aw.setApp aid (fun a => { a with isMounted := true, container := some cid })
    let aw := aw.setContainer cid (fun c => { c with vueApp := some aid })
    -- app._instance = vnode.component (devtools support; the component
    -- instance is produced by the external renderer)
    let aw := aw.setApp aid (fun a => { a with instanceRef := (aw.vw.getNode vid).component })
    aw
  else aw.warnA .appAlreadyMounted

/-- `app.unmount()`: if mounted, render nothing into the recorded container,
drop the devtools instance, and delete the container's back-reference; the
closed-over `isMounted` flag is left as it is.  Otherwise warn only. -/
def unmount (aid : Nat) (aw : AppWorld) : AppWorld :=
  let app := aw.getApp aid
  if app.isMounted then
    let aw :=
      match app.container with
      | some c => aw.setContainer c (fun cr => { cr with rendered := none })
      | none => aw
    let aw := aw.setApp aid (fun a => { a with instanceRef := none })
    let aw :=
      match app.container with
      | some c => aw.setContainer c (fun cr => { cr with vueApp := none })
      | none => aw
    aw
  else aw.warnA .unmountNotMounted

/-- Keys of a props record are pairwise distinct (always true of real JS
objects; the association-list representation must assume it). -/
def keysNodup (m : ObjMap) : Prop := m.Pairwise (fun a b => a.1 ≠ b.1)

/-- A vnode whose `key` field agrees with its props, as established by every
construction path (`createBaseVNode` and `cloneVNode` both derive `key` from
the props record). -/
def KeyConsistent (v : VNodeData) : Prop :=
  v.key = (match v.props with | some p => normalizeKey p | none => .nul)

/-- The vnode literal allocated by `createBaseVNode` (proof-convenience
decomposition; `createBaseVNode_succ` proves it is exactly what the function
builds). -/
def baseVNodeRecord (t : VType) (props : Option Props) (children : ChildVal)
    (pf : Int) (dyn : Option (List String)) (sf : Int) (w : World) : VNodeData :=
  { type := t
    props := props
    key := keyOfProps props
    ref := refOfProps w.ctxInstance props
    scopeId := w.scopeId
    slotScopeIds := none
    children := children
    component := none
    suspense := none
    ssContent := none
    ssFallback := none
    dirs := none
    transition := none
    el := none
    anchor := none
    target := none
    targetAnchor := none
    staticCount := 0
    shapeFlag := sf
    patchFlag := pf
    dynamicProps := dyn
    dynamicChildren := .nullDC
    appContext := none
    ctx := w.ctxInstance
    memo := false }

/-- The children-normalization step of `createBaseVNode`. -/
def cbvChildrenStep (f : Nat) (vid : Nat) (children : ChildVal) (nf : Bool)
    (w : World) : World :=
  if nf then normalizeChildren f vid children w
  else if childTruthy children then
    w.modifyNode vid (fun n =>
      { n with shapeFlag := (jsOr n.shapeFlag
          (if isStrChild children then ShapeFlags.TEXT_CHILDREN
           else ShapeFlags.ARRAY_CHILDREN)) })
  else w

/-- The NaN-key validation step of `createBaseVNode`. -/
def cbvKeyWarnStep (vid : Nat) (w : World) : World :=
  if jsEq (w.getNode vid).key (w.getNode vid).key then w else w.warn .invalidKey

/-- The block-tree registration step of `createBaseVNode`. -/
def cbvTrackStep (vid : Nat) (sf : Int) (isBlockNode : Bool) (w : World) : World :=
  if 0 < w.isBlockTreeEnabled ∧ isBlockNode = false ∧ (currentBlock w).isSome ∧
      (0 < (w.getNode vid).patchFlag ∨ jsAnd sf ShapeFlags.COMPONENT ≠ 0) ∧
      (w.getNode vid).patchFlag ≠ PatchFlags.HYDRATE_EVENTS then
    pushCurrentBlock vid w
  else w

/-- The record built by `cloneVNode` for a vnode with no suspense subtrees
and without the dev hoisted-children deep clone (proof-convenience
decomposition; `cloneVNode_simple` proves agreement). -/
def cloneRecordOf (w : World) (vid : Nat) (extraProps : Option Props)
    (mergeRef : Bool) : VNodeData :=
  let v := w.getNode vid
  { type := v.type
    props := cloneMergedProps v.props extraProps
    key := keyOfProps (cloneMergedProps v.props extraProps)
    ref := cloneRefMerge w.ctxInstance v.ref extraProps mergeRef
    scopeId := v.scopeId
    slotScopeIds := v.slotScopeIds
    children := v.children
    target := v.target
    targetAnchor := v.targetAnchor
    staticCount := v.staticCount
    shapeFlag := v.shapeFlag
    patchFlag := clonePatchFlag v.type v.patchFlag extraProps
    dynamicProps := v.dynamicProps
    dynamicChildren := v.dynamicChildren
    appContext := v.appContext
    dirs := v.dirs
    transition := v.transition
    component := v.component
    suspense := v.suspense
    ssContent := v.ssContent
    ssFallback := v.ssFallback
    el := v.el
    anchor := v.anchor
    ctx := v.ctx
    memo := false }

def nanKeyWorld : World :=
  (createBaseVNode 2 (.el "div") (some { entries := [("key", .nan)] }) .nul 0 none
    ShapeFlags.ELEMENT false false initWorld).2

def mountedMemoWorld : World := { heap := [{ el := some 5, memo := true }] }

def c3OrigWorld : World :=
  (createBaseVNode 3 (.el "span") none .nul PatchFlags.TEXT none ShapeFlags.ELEMENT
    false false (openBlock false initWorld)).2

/-- The three tail steps of the existing-vnode branch of `_createVNode`
(proof-convenience decomposition; `_createVNode_vnodeRef` proves agreement). -/
def cvnChildrenStep (f : Nat) (cloneId : Nat) (children : ChildVal) (w : World) : World :=
  if childTruthy children then normalizeChildren f cloneId children w else w

def cvnBlockStep (origId cloneId : Nat) (isBlockNode : Bool) (w : World) : World :=
  if 0 < w.isBlockTreeEnabled ∧ isBlockNode = false ∧ (currentBlock w).isSome then
    if jsAnd (w.getNode cloneId).shapeFlag ShapeFlags.COMPONENT ≠ 0 then
      replaceInCurrentBlock origId cloneId w
    else pushCurrentBlock cloneId w
  else w

def cvnBailStep (cloneId : Nat) (w : World) : World :=
  w.modifyNode cloneId (fun n => { n with patchFlag := jsOr n.patchFlag PatchFlags.BAIL })

/-- `a ?? b` on optional lookups: the first defined value. -/
def firstSome (a b : Option PVal) : Option PVal :=
  match a with
  | some x => some x
  | none => b

def c7World0 : AppWorld := { containers := [{}] }

def c7World1 : AppWorld := (createApp (.objComp 5) none c7World0).2

def c7World2 : AppWorld := mount 0 0 c7World1

def c7World3 : AppWorld := (createApp (.objComp 6) none c7World2).2

def c7World4 : AppWorld := mount 1 0 c7World3

def c7World5 : AppWorld := unmount 0 c7World2

def c7World6 : AppWorld := mount 1 0 (createApp (.objComp 6) none c7World5).2

def c1World : World := openBlock false initWorld

def c1n1 : Nat × World :=
  createBaseVNode 2 (.el "span") none .nul PatchFlags.TEXT none ShapeFlags.ELEMENT
    false false c1World

def c1n2 : Nat × World :=
  createBaseVNode 2 (.el "span") none .nul 0 none ShapeFlags.ELEMENT false false c1n1.2

def c1n3 : Nat × World :=
  createBaseVNode 2 (.el "span") none .nul PatchFlags.CLASS none ShapeFlags.ELEMENT
    false false c1n2.2

def c1Root : Nat × World := createElementBlock 2 (.el "div") none .nul 0 none none c1n3.2

def c5MountedWorld : World := { heap := [{ el := some 5 }] }

theorem alloc_fst (w : World) (d : VNodeData) : (w.alloc d).1 = w.heap.length := rfl

theorem getD_append_self {α : Type} (l : List α) (d x : α) :
    (l ++ [d]).getD l.length x = d := by
  induction l with
  | nil => rfl
  | cons a t ih => simp [List.getD] at ih ⊢

theorem getD_append_lt {α : Type} (l l' : List α) (i : Nat) (x : α) (h : i < l.length) :
    (l ++ l').getD i x = l.getD i x := by
  induction l generalizing i with
  | nil => simp at h
  | cons a t ih =>
      cases i with
      | zero => rfl
      | succ j => simpa [List.getD] using ih j (by simpa using h)

theorem getD_set_self {α : Type} (l : List α) (i : Nat) (a x : α) (h : i < l.length) :
    (l.set i a).getD i x = a := by
  induction l generalizing i with
  | nil => simp at h
  | cons b t ih =>
      cases i with
      | zero => rfl
      | succ j => simpa [List.getD] using ih j (by simpa using h)

theorem getD_set_ne {α : Type} (l : List α) (i j : Nat) (a x : α) (h : i ≠ j) :
    (l.set i a).getD j x = l.getD j x := by
  induction l generalizing i j with
  | nil => rfl
  | cons b t ih =>
      cases i with
      | zero => cases j with
          | zero => exact absurd rfl h
          | succ _ => rfl
      | succ i' =>
          cases j with
          | zero => rfl
          | succ j' => simpa [List.getD] using ih i' j' (fun hh => h (by rw [hh]))

theorem getNode_alloc (w : World) (d : VNodeData) :
    ((w.alloc d).2).getNode (w.alloc d).1 = d := by
  simp only [World.alloc, World.getNode]
  exact getD_append_self w.heap d default

theorem getNode_alloc_lt (w : World) (d : VNodeData) (i : Nat) (h : i < w.heap.length) :
    ((w.alloc d).2).getNode i = w.getNode i := by
  simpa [World.alloc, World.getNode] using getD_append_lt w.heap [d] i default h

theorem heap_length_alloc (w : World) (d : VNodeData) :
    (w.alloc d).2.heap.length = w.heap.length + 1 := by
  simp [World.alloc]

theorem getNode_modifyNode_self (w : World) (i : Nat) (f : VNodeData → VNodeData)
    (h : i < w.heap.length) :
    (w.modifyNode i f).getNode i = f (w.getNode i) := by
  simpa [World.modifyNode, World.getNode] using
    getD_set_self w.heap i (f (w.heap.getD i default)) default h

theorem getNode_modifyNode_ne (w : World) (i j : Nat) (f : VNodeData → VNodeData)
    (h : i ≠ j) :
    (w.modifyNode i f).getNode j = w.getNode j := by
  simpa [World.modifyNode, World.getNode] using
    getD_set_ne w.heap i j (f (w.heap.getD i default)) default h

theorem heap_length_modifyNode (w : World) (i : Nat) (f : VNodeData → VNodeData) :
    (w.modifyNode i f).heap.length = w.heap.length := by
  simp [World.modifyNode]

theorem blockStack_modifyNode (w : World) (i : Nat) (f : VNodeData → VNodeData) :
    (w.modifyNode i f).blockStack = w.blockStack := rfl

theorem blockStack_alloc (w : World) (d : VNodeData) :
    (w.alloc d).2.blockStack = w.blockStack := rfl

theorem blockStack_warn (w : World) (k : WarnKind) : (w.warn k).blockStack = w.blockStack := rfl

theorem enabled_modifyNode (w : World) (i : Nat) (f : VNodeData → VNodeData) :
    (w.modifyNode i f).isBlockTreeEnabled = w.isBlockTreeEnabled := rfl

theorem enabled_alloc (w : World) (d : VNodeData) :
    (w.alloc d).2.isBlockTreeEnabled = w.isBlockTreeEnabled := rfl

theorem jsEq_refl (v : PVal) (h : v ≠ .nan) : jsEq v v = true := by
  cases v <;> simp_all [jsEq]

theorem heap_closeBlock (s : World) : (closeBlock s).heap = s.heap := rfl

theorem heap_pushCurrentBlock (vid : Nat) (s : World) :
    (pushCurrentBlock vid s).heap = s.heap := by
  unfold pushCurrentBlock
  split <;> rfl

theorem getNode_congr {s t : World} (h : s.heap = t.heap) (i : Nat) :
    s.getNode i = t.getNode i := by
  simp [World.getNode, h]

/-- Claim C2: `setupBlock` pops the top frame of the block stack, writes the
just-closed collecting list (or the empty immutable sentinel, when the block
was opened with tracking disabled as a loop fragment) into the block root's
`dynamicChildren`, and, when a tracking parent frame remains, appends the
block root itself to the parent's collecting list. -/
theorem claim_C2 (w : World) (vid : Nat)
    (fr : Option (Nat × List Nat)) (rest : List (Option (Nat × List Nat)))
    (hstack : w.blockStack = fr :: rest)
    (henabled : 0 < w.isBlockTreeEnabled)
    (hvid : vid < w.heap.length) :
    ((setupBlock vid w).blockStack.length = rest.length) ∧
    (((setupBlock vid w).getNode vid).dynamicChildren =
       fr.elim (DynChildren.arrDC 0 []) (fun p => DynChildren.arrDC p.1 p.2)) ∧
    (fr = none → ((setupBlock vid w).getNode vid).dynamicChildren = .arrDC 0 []) ∧
    (∀ aid2 l2 r2, rest = some (aid2, l2) :: r2 →
       (setupBlock vid w).blockStack = some (aid2, l2 ++ [vid]) :: r2) ∧
    (∀ r2, rest = none :: r2 → (setupBlock vid w).blockStack = rest) ∧
    (rest = [] → (setupBlock vid w).blockStack = []) := by
  have hcur : currentBlock w = fr := by simp [currentBlock, hstack]
  have hnode : ((setupBlock vid w).getNode vid).dynamicChildren =
      fr.elim (DynChildren.arrDC 0 []) (fun p => DynChildren.arrDC p.1 p.2) := by
    have hheap : (setupBlock vid w).heap = (w.modifyNode vid (fun n =>
        { n with dynamicChildren :=
            if 0 < w.isBlockTreeEnabled then
              match currentBlock w with
              | some (aid, l) => DynChildren.arrDC aid l
              | none => DynChildren.arrDC 0 []
            else .nullDC })).heap := by
      have hgen : ∀ (s : World),
          (if 0 < (closeBlock s).isBlockTreeEnabled ∧
              (currentBlock (closeBlock s)).isSome = true then
            pushCurrentBlock vid (closeBlock s)
          else closeBlock s).heap = s.heap := by
        intro s
        split
        · rw [heap_pushCurrentBlock, heap_closeBlock]
        · rw [heap_closeBlock]
      unfold setupBlock
      exact hgen _
    rw [getNode_congr hheap, getNode_modifyNode_self w vid _ hvid]
    dsimp only
    rw [if_pos henabled, hcur]
    cases fr with
    | none => rfl
    | some p => rfl
  refine ⟨?_, hnode, fun h => by simpa [h] using hnode, ?_, ?_, ?_⟩
  · rcases rest with _ | ⟨f2, r2⟩
    · simp [setupBlock, closeBlock, currentBlock, pushCurrentBlock, hstack, henabled,
        World.modifyNode]
    · rcases f2 with _ | ⟨aid2, l2⟩ <;>
        simp [setupBlock, closeBlock, currentBlock, pushCurrentBlock, hstack, henabled,
          World.modifyNode]
  · intro aid2 l2 r2 hrest
    subst hrest
    simp [setupBlock, closeBlock, currentBlock, pushCurrentBlock, hstack, henabled,
      World.modifyNode]
  · intro r2 hrest
    subst hrest
    simp [setupBlock, closeBlock, currentBlock, pushCurrentBlock, hstack, henabled,
      World.modifyNode]
  · intro hrest
    subst hrest
    simp [setupBlock, closeBlock, currentBlock, pushCurrentBlock, hstack, henabled,
      World.modifyNode]

theorem blockStack_createBaseVNode_block (f : Nat) (t : VType) (props : Option Props)
    (children : ChildVal) (pf : Int) (dyn : Option (List String)) (sf : Int) (w : World) :
    (createBaseVNode (f + 1) t props children pf dyn sf true false w).2.blockStack =
      w.blockStack ∧
    (createBaseVNode (f + 1) t props children pf dyn sf true false w).2.isBlockTreeEnabled =
      w.isBlockTreeEnabled := by
  constructor <;>
  · simp only [createBaseVNode]
    repeat' split
    all_goals
      simp_all [World.warn, World.modifyNode, World.alloc, pushCurrentBlock, currentBlock]

/-- Claim C9: every `openBlock` pushes exactly one frame and every `setupBlock`
pops exactly one, so an `openBlock` paired with a `createElementBlock`
restores the stack depth, the identity tag of the current collecting array
and the rest of the stack, while appending the block root to the parent
collecting list when the parent is tracking. -/
theorem claim_C9 :
    (∀ (dt : Bool) (w : World),
       (openBlock dt w).blockStack.length = w.blockStack.length + 1) ∧
    (∀ (vid : Nat) (w : World), w.blockStack ≠ [] →
       (setupBlock vid w).blockStack.length + 1 = w.blockStack.length) ∧
    (∀ (f : Nat) (t : VType) (props : Option Props) (children : ChildVal)
       (pf : Int) (dyn : Option (List String)) (sfOpt : Option Int) (w : World),
       ((createElementBlock (f + 1) t props children pf dyn sfOpt
           (openBlock false w)).2.blockStack.length = w.blockStack.length) ∧
       ((currentBlock (createElementBlock (f + 1) t props children pf dyn sfOpt
           (openBlock false w)).2).map Prod.fst = (currentBlock w).map Prod.fst) ∧
       ((createElementBlock (f + 1) t props children pf dyn sfOpt
           (openBlock false w)).2.blockStack.tail = w.blockStack.tail) ∧
       (∀ aid l rest, w.blockStack = some (aid, l) :: rest → 0 < w.isBlockTreeEnabled →
          (createElementBlock (f + 1) t props children pf dyn sfOpt
            (openBlock false w)).2.blockStack =
            some (aid, l ++ [(createElementBlock (f + 1) t props children pf dyn sfOpt
              (openBlock false w)).1]) :: rest)) := by
  refine ⟨?_, ?_, ?_⟩
  · intro dt w
    cases dt <;> simp [openBlock]
  · intro vid w hne
    rcases hstack : w.blockStack with _ | ⟨fr, rest⟩
    · exact absurd hstack hne
    · rcases rest with _ | ⟨f2, r2⟩
      · simp [setupBlock, closeBlock, currentBlock, pushCurrentBlock, hstack, World.modifyNode]
      · rcases f2 with _ | ⟨aid2, l2⟩ <;>
          · by_cases he : 0 < w.isBlockTreeEnabled <;>
              simp [setupBlock, closeBlock, currentBlock, pushCurrentBlock, hstack,
                World.modifyNode, he]
  · intro f t props children pf dyn sfOpt w
    have hbase := blockStack_createBaseVNode_block f t props children pf dyn
      (sfOpt.getD (defaultShapeFlagFor t)) (openBlock false w)
    rcases hbase with ⟨hb1, hb2⟩
    have hob : (openBlock false w).blockStack = some (w.nextArrId, []) :: w.blockStack := by
      simp [openBlock]
    have hoe : (openBlock false w).isBlockTreeEnabled = w.isBlockTreeEnabled := by
      simp [openBlock]
    -- abbreviate the inner world
    set w2 := (createBaseVNode (f + 1) t props children pf dyn
      (sfOpt.getD (defaultShapeFlagFor t)) true false (openBlock false w)).2 with hw2
    set vid := (createBaseVNode (f + 1) t props children pf dyn
      (sfOpt.getD (defaultShapeFlagFor t)) true false (openBlock false w)).1 with hvid
    have hstk2 : w2.blockStack = some (w.nextArrId, []) :: w.blockStack := by rw [hb1, hob]
    have hen2 : w2.isBlockTreeEnabled = w.isBlockTreeEnabled := by rw [hb2, hoe]
    have hres : (createElementBlock (f + 1) t props children pf dyn sfOpt
        (openBlock false w)).2 = setupBlock vid w2 := rfl
    have hres1 : (createElementBlock (f + 1) t props children pf dyn sfOpt
        (openBlock false w)).1 = vid := rfl
    rw [hres, hres1]
    refine ⟨?_, ?_, ?_, ?_⟩
    · rcases hstack : w.blockStack with _ | ⟨fr, rest⟩
      · simp [setupBlock, closeBlock, currentBlock, pushCurrentBlock, hstk2, hstack,
          World.modifyNode]
      · rcases fr with _ | ⟨aid2, l2⟩ <;>
          · by_cases he : 0 < w2.isBlockTreeEnabled <;>
              simp [setupBlock, closeBlock, currentBlock, pushCurrentBlock, hstk2, hstack,
                World.modifyNode, he]
    · rcases hstack : w.blockStack with _ | ⟨fr, rest⟩
      · simp [setupBlock, closeBlock, currentBlock, pushCurrentBlock, hstk2, hstack,
          World.modifyNode]
      · rcases fr with _ | ⟨aid2, l2⟩ <;>
          · by_cases he : 0 < w2.isBlockTreeEnabled <;>
              simp [setupBlock, closeBlock, currentBlock, pushCurrentBlock, hstk2, hstack,
                World.modifyNode, he]
    · rcases hstack : w.blockStack with _ | ⟨fr, rest⟩
      · simp [setupBlock, closeBlock, currentBlock, pushCurrentBlock, hstk2, hstack,
          World.modifyNode]
      · rcases fr with _ | ⟨aid2, l2⟩ <;>
          · by_cases he : 0 < w2.isBlockTreeEnabled <;>
              simp [setupBlock, closeBlock, currentBlock, pushCurrentBlock, hstk2, hstack,
                World.modifyNode, he]
    · intro aid l rest hstack henab
      have he2 : 0 < w2.isBlockTreeEnabled := by rw [hen2]; exact henab
      simp [setupBlock, closeBlock, currentBlock, pushCurrentBlock, hstk2, hstack,
        World.modifyNode, he2]

theorem set_of_ge {α : Type} (l : List α) (i : Nat) (a : α) (h : l.length ≤ i) :
    l.set i a = l := by
  induction l generalizing i with
  | nil => rfl
  | cons b t ih =>
      cases i with
      | zero => simp at h
      | succ j => simp only [List.set]; rw [ih j (by simpa using h)]

theorem patchFlag_modifyNode (w : World) (i j : Nat) (g : VNodeData → VNodeData)
    (hg : ∀ n, (g n).patchFlag = n.patchFlag) :
    ((w.modifyNode i g).getNode j).patchFlag = (w.getNode j).patchFlag := by
  by_cases hij : i = j
  · subst hij
    by_cases hlen : i < w.heap.length
    · rw [getNode_modifyNode_self w i g hlen]; exact hg _
    · have : (w.modifyNode i g).heap = w.heap := by
        simp [World.modifyNode, set_of_ge _ _ _ (Nat.le_of_not_lt hlen)]
      rw [getNode_congr this]
  · rw [getNode_modifyNode_ne w i j g hij]

theorem normalizeChildren_simple (f : Nat) (vid : Nat) (children : ChildVal) (w : World)
    (hsf : jsAnd ((w.getNode vid).shapeFlag) ShapeFlags.TELEPORT = 0) :
    (normalizeChildren f vid children w).blockStack = w.blockStack ∧
    (normalizeChildren f vid children w).isBlockTreeEnabled = w.isBlockTreeEnabled ∧
    (normalizeChildren f vid children w).heap.length = w.heap.length ∧
    ((normalizeChildren f vid children w).getNode vid).patchFlag =
      ((w.getNode vid)).patchFlag := by
  cases f with
  | zero => exact ⟨rfl, rfl, rfl, rfl⟩
  | succ f' =>
      cases children with
      | nul =>
          refine ⟨rfl, rfl, ?_, ?_⟩
          · simp [normalizeChildren, heap_length_modifyNode]
          · simp only [normalizeChildren]
            exact patchFlag_modifyNode w vid vid _ (fun n => rfl)
      | boolV b =>
          simp only [normalizeChildren]
          rw [if_neg (by simp [hsf])]
          refine ⟨rfl, rfl, ?_, ?_⟩
          · simp [heap_length_modifyNode]
          · exact patchFlag_modifyNode w vid vid _ (fun n => rfl)
      | str s =>
          simp only [normalizeChildren]
          rw [if_neg (by simp [hsf])]
          refine ⟨rfl, rfl, ?_, ?_⟩
          · simp [heap_length_modifyNode]
          · exact patchFlag_modifyNode w vid vid _ (fun n => rfl)
      | num n =>
          simp only [normalizeChildren]
          rw [if_neg (by simp [hsf])]
          refine ⟨rfl, rfl, ?_, ?_⟩
          · simp [heap_length_modifyNode]
          · exact patchFlag_modifyNode w vid vid _ (fun n => rfl)
      | vnode cid =>
          simp only [normalizeChildren]
          split
          · exact ⟨rfl, rfl, rfl, rfl⟩
          · refine ⟨rfl, rfl, ?_, ?_⟩
            · simp [heap_length_modifyNode]
            · exact patchFlag_modifyNode w vid vid _ (fun n => rfl)
      | arr cs =>
          refine ⟨rfl, rfl, ?_, ?_⟩
          · simp [normalizeChildren, heap_length_modifyNode]
          · simp only [normalizeChildren]
            exact patchFlag_modifyNode w vid vid _ (fun n => rfl)
      | fnVal fid =>
          refine ⟨rfl, rfl, ?_, ?_⟩
          · simp [normalizeChildren, heap_length_modifyNode]
          · simp only [normalizeChildren]
            exact patchFlag_modifyNode w vid vid _ (fun n => rfl)
      | defaultSlotObj fid c =>
          simp only [normalizeChildren]
          split
          · exact ⟨rfl, rfl, rfl, rfl⟩
          · refine ⟨rfl, rfl, ?_, ?_⟩
            · simp [heap_length_modifyNode]
            · exact patchFlag_modifyNode w vid vid _ (fun n => rfl)

/-- `createBaseVNode` at positive fuel is the composition of its steps. -/
theorem createBaseVNode_succ (f : Nat) (t : VType) (props : Option Props)
    (children : ChildVal) (pf : Int) (dyn : Option (List String)) (sf : Int)
    (ibn nf : Bool) (w : World) :
    createBaseVNode (f + 1) t props children pf dyn sf ibn nf w =
      (w.heap.length,
       cbvTrackStep w.heap.length sf ibn
         (cbvKeyWarnStep w.heap.length
           (cbvChildrenStep f w.heap.length children nf
             (w.alloc (baseVNodeRecord t props children pf dyn sf w)).2))) := rfl

theorem cbvChildrenStep_simple (f : Nat) (vid : Nat) (children : ChildVal) (nf : Bool)
    (w : World)
    (hsf : nf = true → jsAnd ((w.getNode vid).shapeFlag) ShapeFlags.TELEPORT = 0) :
    (cbvChildrenStep f vid children nf w).blockStack = w.blockStack ∧
    (cbvChildrenStep f vid children nf w).isBlockTreeEnabled = w.isBlockTreeEnabled ∧
    ((cbvChildrenStep f vid children nf w).getNode vid).patchFlag =
      (w.getNode vid).patchFlag := by
  cases nf with
  | true =>
      have h := normalizeChildren_simple f vid children w (hsf rfl)
      simp only [cbvChildrenStep, if_pos]
      exact ⟨h.1, h.2.1, h.2.2.2⟩
  | false =>
      simp only [cbvChildrenStep]
      split
      · simp at *
      · split
        · exact ⟨rfl, rfl, patchFlag_modifyNode w vid vid _ (fun n => rfl)⟩
        · exact ⟨rfl, rfl, rfl⟩

theorem cbvKeyWarnStep_effects (vid : Nat) (w : World) :
    (cbvKeyWarnStep vid w).blockStack = w.blockStack ∧
    (cbvKeyWarnStep vid w).isBlockTreeEnabled = w.isBlockTreeEnabled ∧
    (cbvKeyWarnStep vid w).heap = w.heap := by
  simp only [cbvKeyWarnStep]
  split
  · exact ⟨rfl, rfl, rfl⟩
  · exact ⟨rfl, rfl, rfl⟩

theorem heap_cbvTrackStep (vid : Nat) (sf : Int) (ibn : Bool) (w : World) :
    (cbvTrackStep vid sf ibn w).heap = w.heap := by
  simp only [cbvTrackStep]
  split
  · exact heap_pushCurrentBlock vid w
  · rfl

theorem createBaseVNode_track_iff (f : Nat) (t : VType) (props : Option Props) (children : ChildVal)
    (pf : Int) (dyn : Option (List String)) (sf : Int) (ibn nf : Bool)
    (w : World) (aid : Nat) (l : List Nat)
    (henabled : 0 < w.isBlockTreeEnabled)
    (hopen : currentBlock w = some (aid, l))
    (hnf : nf = true → jsAnd sf ShapeFlags.TELEPORT = 0) :
    ((createBaseVNode (f + 1) t props children pf dyn sf ibn nf w).2.getNode
        (createBaseVNode (f + 1) t props children pf dyn sf ibn nf w).1).patchFlag = pf ∧
    currentBlock (createBaseVNode (f + 1) t props children pf dyn sf ibn nf w).2 =
      (if ibn = false ∧ (0 < pf ∨ jsAnd sf ShapeFlags.COMPONENT ≠ 0) ∧
          pf ≠ PatchFlags.HYDRATE_EVENTS
       then some (aid, l ++ [(createBaseVNode (f + 1) t props children pf dyn sf ibn nf w).1])
       else some (aid, l)) := by
  rcases hstack : w.blockStack with _ | ⟨fr, rest⟩
  · rw [currentBlock, hstack] at hopen; exact absurd hopen (by simp)
  have hfr : fr = some (aid, l) := by rw [currentBlock, hstack] at hopen; exact hopen
  subst hfr
  rw [createBaseVNode_succ]
  set vid := w.heap.length with hvid
  set w1 := (w.alloc (baseVNodeRecord t props children pf dyn sf w)).2 with hw1
  have hn1 : w1.getNode vid = baseVNodeRecord t props children pf dyn sf w := by
    rw [hw1, hvid]; exact getNode_alloc w _
  have hs1 : w1.blockStack = w.blockStack := blockStack_alloc w _
  have he1 : w1.isBlockTreeEnabled = w.isBlockTreeEnabled := enabled_alloc w _
  set w2 := cbvChildrenStep f vid children nf w1 with hw2
  have h2 := cbvChildrenStep_simple f vid children nf w1
    (fun h => by rw [hn1]; exact hnf h)
  set w3 := cbvKeyWarnStep vid w2 with hw3
  have h3 := cbvKeyWarnStep_effects vid w2
  have hpf3 : (w3.getNode vid).patchFlag = pf := by
    rw [getNode_congr h3.2.2, h2.2.2, hn1]
    rfl
  have hs3 : w3.blockStack = some (aid, l) :: rest := by
    rw [h3.1, h2.1, hs1, hstack]
  have he3 : w3.isBlockTreeEnabled = w.isBlockTreeEnabled := by
    rw [h3.2.1, h2.2.1, he1]
  constructor
  · -- patchFlag of the constructed node
    show ((cbvTrackStep vid sf ibn w3).getNode vid).patchFlag = pf
    rw [getNode_congr (heap_cbvTrackStep vid sf ibn w3)]
    exact hpf3
  · -- block registration iff the tracking condition holds
    show currentBlock (cbvTrackStep vid sf ibn w3) = _
    simp only [cbvTrackStep]
    by_cases hc : ibn = false ∧ (0 < pf ∨ jsAnd sf ShapeFlags.COMPONENT ≠ 0) ∧
        pf ≠ PatchFlags.HYDRATE_EVENTS
    · rw [if_pos ⟨by rw [he3]; exact henabled, hc.1,
        by rw [currentBlock, hs3]; simp, by rw [hpf3]; exact hc.2.1,
        by rw [hpf3]; exact hc.2.2⟩, if_pos hc]
      simp [pushCurrentBlock, currentBlock, hs3]
    · rw [if_neg ?_, if_neg hc]
      · rw [currentBlock, hs3]
      · intro hfull
        exact hc ⟨hfull.2.1, by rw [hpf3] at hfull; exact hfull.2.2.2.1,
          by rw [hpf3] at hfull; exact hfull.2.2.2.2⟩

theorem cloneVNode_simple (f vid : Nat) (ep : Option Props) (mr : Bool) (w : World)
    (hss : (w.getNode vid).ssContent = none)
    (hsf : (w.getNode vid).ssFallback = none)
    (hnd : (w.getNode vid).patchFlag = PatchFlags.HOISTED →
           ∀ cs, (w.getNode vid).children ≠ ChildVal.arr cs) :
    cloneVNode (f + 1) vid ep mr w = w.alloc (cloneRecordOf w vid ep mr) := by
  simp only [cloneVNode, hss, hsf]
  by_cases hp : (w.getNode vid).patchFlag = PatchFlags.HOISTED
  · rw [if_pos hp]
    rcases hch : (w.getNode vid).children with _ | b | s | n | cid | cs | fid | fo
    · simp only [cloneRecordOf, hch, hss, hsf]
    · simp only [cloneRecordOf, hch, hss, hsf]
    · simp only [cloneRecordOf, hch, hss, hsf]
    · simp only [cloneRecordOf, hch, hss, hsf]
    · simp only [cloneRecordOf, hch, hss, hsf]
    · exact absurd hch (hnd hp cs)
    · simp only [cloneRecordOf, hch, hss, hsf]
    · simp only [cloneRecordOf, hch, hss, hsf]
  · rw [if_neg hp]
    simp only [cloneRecordOf, hss, hsf]

theorem cloneVNode_fields (f vid : Nat) (ep : Option Props) (mr : Bool) (w : World) :
    ((cloneVNode (f + 1) vid ep mr w).2.getNode (cloneVNode (f + 1) vid ep mr w).1).type =
      (w.getNode vid).type ∧
    ((cloneVNode (f + 1) vid ep mr w).2.getNode (cloneVNode (f + 1) vid ep mr w).1).shapeFlag =
      (w.getNode vid).shapeFlag ∧
    ((cloneVNode (f + 1) vid ep mr w).2.getNode (cloneVNode (f + 1) vid ep mr w).1).key =
      keyOfProps (cloneMergedProps (w.getNode vid).props ep) ∧
    ((cloneVNode (f + 1) vid ep mr w).2.getNode (cloneVNode (f + 1) vid ep mr w).1).ref =
      cloneRefMerge w.ctxInstance (w.getNode vid).ref ep mr ∧
    ((cloneVNode (f + 1) vid ep mr w).2.getNode (cloneVNode (f + 1) vid ep mr w).1).props =
      cloneMergedProps (w.getNode vid).props ep ∧
    ((cloneVNode (f + 1) vid ep mr w).2.getNode (cloneVNode (f + 1) vid ep mr w).1).el =
      (w.getNode vid).el ∧
    ((cloneVNode (f + 1) vid ep mr w).2.getNode (cloneVNode (f + 1) vid ep mr w).1).patchFlag =
      clonePatchFlag (w.getNode vid).type (w.getNode vid).patchFlag ep := by
  simp only [cloneVNode]
  repeat' split
  all_goals rw [getNode_alloc]
  all_goals exact ⟨rfl, rfl, rfl, rfl, rfl, rfl, rfl⟩

/-- Claim C4: for `cloneVNode` with extra props, a Fragment keeps its patch flag
unchanged, the hoisted negative sentinel is replaced outright by FULL_PROPS,
and any other patch flag is OR-ed with FULL_PROPS; with no extra props the
patch flag is copied unchanged. -/
theorem claim_C4 :
    (∀ (f vid : Nat) (p : Props) (mr : Bool) (w : World),
       (w.getNode vid).type = .fragmentT →
       ((cloneVNode (f + 1) vid (some p) mr w).2.getNode
           (cloneVNode (f + 1) vid (some p) mr w).1).patchFlag =
         (w.getNode vid).patchFlag) ∧
    (∀ (f vid : Nat) (p : Props) (mr : Bool) (w : World),
       (w.getNode vid).type ≠ .fragmentT →
       (w.getNode vid).patchFlag = PatchFlags.HOISTED →
       ((cloneVNode (f + 1) vid (some p) mr w).2.getNode
           (cloneVNode (f + 1) vid (some p) mr w).1).patchFlag = PatchFlags.FULL_PROPS) ∧
    (∀ (f vid : Nat) (p : Props) (mr : Bool) (w : World),
       (w.getNode vid).type ≠ .fragmentT →
       (w.getNode vid).patchFlag ≠ PatchFlags.HOISTED →
       ((cloneVNode (f + 1) vid (some p) mr w).2.getNode
           (cloneVNode (f + 1) vid (some p) mr w).1).patchFlag =
         jsOr (w.getNode vid).patchFlag PatchFlags.FULL_PROPS) ∧
    (∀ (f vid : Nat) (mr : Bool) (w : World),
       ((cloneVNode (f + 1) vid none mr w).2.getNode
           (cloneVNode (f + 1) vid none mr w).1).patchFlag =
         (w.getNode vid).patchFlag) := by
  refine ⟨?_, ?_, ?_, ?_⟩
  · intro f vid p mr w h
    rw [(cloneVNode_fields f vid (some p) mr w).2.2.2.2.2.2]
    simp [clonePatchFlag, h]
  · intro f vid p mr w h1 h2
    rw [(cloneVNode_fields f vid (some p) mr w).2.2.2.2.2.2]
    simp [clonePatchFlag, h1, h2]
  · intro f vid p mr w h1 h2
    rw [(cloneVNode_fields f vid (some p) mr w).2.2.2.2.2.2]
    simp [clonePatchFlag, h1, h2]
  · intro f vid mr w
    rw [(cloneVNode_fields f vid none mr w).2.2.2.2.2.2]
    rfl

/-- Claim C8: a vnode whose key is the NaN sentinel never satisfies
`isSameVNodeType` against itself, and constructing a vnode with a NaN key
succeeds while emitting the invalid-key warning only. -/
theorem claim_C8 :
    (∀ (n : VNodeData), n.key = .nan → (isSameVNodeType [] n n).1 = false) ∧
    (((createBaseVNode 2 (.el "div") (some { entries := [("key", .nan)] })
        .nul 0 none ShapeFlags.ELEMENT false false initWorld).2.getNode 0).key = .nan) ∧
    ((createBaseVNode 2 (.el "div") (some { entries := [("key", .nan)] })
        .nul 0 none ShapeFlags.ELEMENT false false initWorld).2.warnings =
      [.invalidKey]) ∧
    ((createBaseVNode 2 (.el "div") (some { entries := [("key", .nan)] })
        .nul 0 none ShapeFlags.ELEMENT false false initWorld).2.heap.length = 1) := by
  refine ⟨?_, rfl, rfl, rfl⟩
  intro n hk
  simp only [isSameVNodeType]
  split
  · rfl
  · simp [hk, jsEq, Bool.and_eq_false_iff]

theorem beq_vtype_self (t : VType) : (t == t) = true := by
  simp

/-- Claim C10 (amended): for a vnode whose key field is consistent with its
props and is not NaN, `cloneVNode` with no extra props preserves type, key,
ref, shape flag and patch flag, and the clone is
`isSameVNodeType`-reconcilable with the original; the NaN-keyed case is the
exception. -/
theorem claim_C10 (f vid : Nat) (mr : Bool) (w : World)
    (hkc : KeyConsistent (w.getNode vid))
    (hnan : (w.getNode vid).key ≠ .nan) :
    ((cloneVNode (f + 1) vid none mr w).2.getNode
        (cloneVNode (f + 1) vid none mr w).1).type = (w.getNode vid).type ∧
    ((cloneVNode (f + 1) vid none mr w).2.getNode
        (cloneVNode (f + 1) vid none mr w).1).key = (w.getNode vid).key ∧
    ((cloneVNode (f + 1) vid none mr w).2.getNode
        (cloneVNode (f + 1) vid none mr w).1).ref = (w.getNode vid).ref ∧
    ((cloneVNode (f + 1) vid none mr w).2.getNode
        (cloneVNode (f + 1) vid none mr w).1).shapeFlag = (w.getNode vid).shapeFlag ∧
    ((cloneVNode (f + 1) vid none mr w).2.getNode
        (cloneVNode (f + 1) vid none mr w).1).patchFlag = (w.getNode vid).patchFlag ∧
    (isSameVNodeType []
        ((cloneVNode (f + 1) vid none mr w).2.getNode (cloneVNode (f + 1) vid none mr w).1)
        (w.getNode vid)).1 = true := by
  obtain ⟨ht, hsf, hkey, href, hprops, hel, hpf⟩ := cloneVNode_fields f vid none mr w
  have hkey' : ((cloneVNode (f + 1) vid none mr w).2.getNode
      (cloneVNode (f + 1) vid none mr w).1).key = (w.getNode vid).key := by
    rw [hkey, hkc]
    rfl
  refine ⟨ht, hkey', href, hsf, ?_, ?_⟩
  · rw [hpf]; rfl
  · simp only [isSameVNodeType]
    split
    · next hcond =>
        exfalso
        rcases hcond with ⟨_, hdirty⟩
        revert hdirty
        cases typeComponentId (w.getNode vid).type <;> simp
    · rw [ht, hkey']
      simp [jsEq_refl _ hnan]

/-- Claim C10, counterexample to the literal statement: the clone of a NaN-keyed
vnode preserves type, key and patch flag yet fails `isSameVNodeType` against
its original, because NaN never compares equal to itself. -/
theorem claim_C10_counterexample :
    ((cloneVNode 1 0 none false nanKeyWorld).2.getNode
        (cloneVNode 1 0 none false nanKeyWorld).1).type = (nanKeyWorld.getNode 0).type ∧
    ((cloneVNode 1 0 none false nanKeyWorld).2.getNode
        (cloneVNode 1 0 none false nanKeyWorld).1).key = (nanKeyWorld.getNode 0).key ∧
    ((cloneVNode 1 0 none false nanKeyWorld).2.getNode
        (cloneVNode 1 0 none false nanKeyWorld).1).patchFlag =
      (nanKeyWorld.getNode 0).patchFlag ∧
    (isSameVNodeType []
        ((cloneVNode 1 0 none false nanKeyWorld).2.getNode
          (cloneVNode 1 0 none false nanKeyWorld).1)
        (nanKeyWorld.getNode 0)).1 = false := ⟨rfl, rfl, rfl, rfl⟩

/-- Claim C5, counterexample to the literal statement: a mounted (host element
present) but memoized vnode is returned as the very same instance by
`normalizeVNode`, although the spec says every node with a host handle is
cloned into a distinct instance. -/
theorem claim_C5_counterexample :
    (mountedMemoWorld.getNode 0).el = some 5 ∧
    (mountedMemoWorld.getNode 0).memo = true ∧
    normalizeVNode 1 (.vnode 0) mountedMemoWorld = (0, mountedMemoWorld) := ⟨rfl, rfl, rfl⟩

/-- Claim C5 (amended): normalizing an already-vnode child returns the same
instance when the node has no host element and is not hoisted, or when it is
memoized — including mounted memoized nodes, contrary to the literal spec
text; a mounted non-memoized node is cloned into a fresh, structurally equal
instance. -/
theorem claim_C5 :
    (∀ (f vid : Nat) (w : World),
       ((w.getNode vid).el = none ∧ (w.getNode vid).patchFlag ≠ PatchFlags.HOISTED) ∨
         (w.getNode vid).memo = true →
       normalizeVNode f (.vnode vid) w = (vid, w)) ∧
    (∀ (f vid e : Nat) (w : World),
       (w.getNode vid).el = some e →
       (w.getNode vid).memo = false →
       vid < w.heap.length →
       (w.getNode vid).ssContent = none →
       (w.getNode vid).ssFallback = none →
       ((w.getNode vid).patchFlag = PatchFlags.HOISTED →
          ∀ cs, (w.getNode vid).children ≠ ChildVal.arr cs) →
       KeyConsistent (w.getNode vid) →
       (normalizeVNode (f + 1) (.vnode vid) w).1 ≠ vid ∧
       ((normalizeVNode (f + 1) (.vnode vid) w).2.getNode
            (normalizeVNode (f + 1) (.vnode vid) w).1).type = (w.getNode vid).type ∧
       ((normalizeVNode (f + 1) (.vnode vid) w).2.getNode
            (normalizeVNode (f + 1) (.vnode vid) w).1).key = (w.getNode vid).key ∧
       ((normalizeVNode (f + 1) (.vnode vid) w).2.getNode
            (normalizeVNode (f + 1) (.vnode vid) w).1).props = (w.getNode vid).props ∧
       ((normalizeVNode (f + 1) (.vnode vid) w).2.getNode
            (normalizeVNode (f + 1) (.vnode vid) w).1).ref = (w.getNode vid).ref ∧
       ((normalizeVNode (f + 1) (.vnode vid) w).2.getNode
            (normalizeVNode (f + 1) (.vnode vid) w).1).children = (w.getNode vid).children ∧
       ((normalizeVNode (f + 1) (.vnode vid) w).2.getNode
            (normalizeVNode (f + 1) (.vnode vid) w).1).shapeFlag =
         (w.getNode vid).shapeFlag ∧
       ((normalizeVNode (f + 1) (.vnode vid) w).2.getNode
            (normalizeVNode (f + 1) (.vnode vid) w).1).patchFlag =
         (w.getNode vid).patchFlag ∧
       ((normalizeVNode (f + 1) (.vnode vid) w).2.getNode
            (normalizeVNode (f + 1) (.vnode vid) w).1).el = some e) := by
  constructor
  · intro f vid w h
    simp only [normalizeVNode, cloneIfMounted]
    rw [if_pos]
    exact h
  · intro f vid e w hel hmemo hvid hss hsf hnd hkc
    have hstep : normalizeVNode (f + 1) (.vnode vid) w = cloneVNode (f + 1) vid none false w := by
      simp only [normalizeVNode, cloneIfMounted]
      rw [if_neg]
      intro hcond
      rcases hcond with ⟨h1, _⟩ | h2
      · rw [hel] at h1; exact Option.noConfusion h1
      · rw [hmemo] at h2; exact Bool.noConfusion h2
    rw [hstep, cloneVNode_simple f vid none false w hss hsf hnd]
    rw [getNode_alloc, alloc_fst]
    refine ⟨Nat.ne_of_gt hvid, rfl, ?_, rfl, rfl, rfl, rfl, rfl, ?_⟩
    · show keyOfProps (cloneMergedProps (w.getNode vid).props none) = (w.getNode vid).key
      rw [hkc]
      rfl
    · show (w.getNode vid).el = some e
      exact hel

theorem heap_replaceInCurrentBlock (a b : Nat) (w : World) :
    (replaceInCurrentBlock a b w).heap = w.heap := by
  unfold replaceInCurrentBlock
  split <;> rfl

/-- Claim C3, counterexample to the literal statement: an element vnode cloned
through `_createVNode` is appended to the current block rather than
replacing the original's slot, and its patch flag becomes BAIL (-1), not the
original flag OR FULL_PROPS. -/
theorem claim_C3_counterexample :
    currentBlock c3OrigWorld = some (1, [0]) ∧
    (_createVNode 3 (.vnodeRef 0) none .nul 0 none false c3OrigWorld).1 = 1 ∧
    currentBlock (_createVNode 3 (.vnodeRef 0) none .nul 0 none false c3OrigWorld).2 =
      some (1, [0, 1]) ∧
    ((_createVNode 3 (.vnodeRef 0) none .nul 0 none false c3OrigWorld).2.getNode 1).patchFlag
      = -1 ∧
    ((_createVNode 3 (.vnodeRef 0) none .nul 0 none false c3OrigWorld).2.getNode 1).patchFlag
      ≠ jsOr PatchFlags.TEXT PatchFlags.FULL_PROPS := by
  refine ⟨rfl, rfl, rfl, rfl, by decide⟩

theorem _createVNode_vnodeRef (f vid : Nat) (props : Option Props) (children : ChildVal)
    (pf : Int) (dyn : Option (List String)) (ibn : Bool) (w : World) :
    _createVNode (f + 1) (.vnodeRef vid) props children pf dyn ibn w =
      ((cloneVNode f vid props true w).1,
       cvnBailStep (cloneVNode f vid props true w).1
         (cvnBlockStep vid (cloneVNode f vid props true w).1 ibn
           (cvnChildrenStep f (cloneVNode f vid props true w).1 children
             (cloneVNode f vid props true w).2))) := rfl

theorem heap_cvnBlockStep (a b : Nat) (ibn : Bool) (w : World) :
    (cvnBlockStep a b ibn w).heap = w.heap := by
  unfold cvnBlockStep
  split
  · split
    · exact heap_replaceInCurrentBlock a b w
    · exact heap_pushCurrentBlock b w
  · rfl

/-- Claim C3 (amended): when `_createVNode` receives an existing vnode it clones
it, merging the incoming props, merging ref bindings with array-
concatenation semantics, and OR-ing the BAIL flag (not FULL_PROPS) onto the
clone's patch flag; under active block tracking the clone replaces the
original in the current block's list only when the node is component-shaped
and is appended otherwise; provided array children are installed into the
clone together with the ARRAY_CHILDREN shape bit. -/
theorem claim_C3 :
    (∀ (f vid : Nat) (props : Option Props) (pf : Int) (dyn : Option (List String))
       (w : World) (aid : Nat) (l : List Nat),
       0 < w.isBlockTreeEnabled →
       currentBlock w = some (aid, l) →
       vid < w.heap.length →
       (w.getNode vid).ssContent = none →
       (w.getNode vid).ssFallback = none →
       ((w.getNode vid).patchFlag = PatchFlags.HOISTED →
          ∀ cs, (w.getNode vid).children ≠ ChildVal.arr cs) →
       ((_createVNode (f + 2) (.vnodeRef vid) props ChildVal.nul pf dyn false w).1 =
          w.heap.length ∧
        ((_createVNode (f + 2) (.vnodeRef vid) props ChildVal.nul pf dyn false w).2.getNode
            (_createVNode (f + 2) (.vnodeRef vid) props ChildVal.nul pf dyn false w).1).props =
          cloneMergedProps (w.getNode vid).props props ∧
        ((_createVNode (f + 2) (.vnodeRef vid) props ChildVal.nul pf dyn false w).2.getNode
            (_createVNode (f + 2) (.vnodeRef vid) props ChildVal.nul pf dyn false w).1).ref =
          cloneRefMerge w.ctxInstance (w.getNode vid).ref props true ∧
        ((_createVNode (f + 2) (.vnodeRef vid) props ChildVal.nul pf dyn false w).2.getNode
            (_createVNode (f + 2) (.vnodeRef vid) props ChildVal.nul pf dyn false w).1).patchFlag =
          jsOr (clonePatchFlag (w.getNode vid).type (w.getNode vid).patchFlag props)
            PatchFlags.BAIL ∧
        (jsAnd (w.getNode vid).shapeFlag ShapeFlags.COMPONENT ≠ 0 →
           currentBlock (_createVNode (f + 2) (.vnodeRef vid) props ChildVal.nul pf dyn
               false w).2 =
             some (aid, replaceFirst l vid
               (_createVNode (f + 2) (.vnodeRef vid) props ChildVal.nul pf dyn false w).1)) ∧
        (jsAnd (w.getNode vid).shapeFlag ShapeFlags.COMPONENT = 0 →
           currentBlock (_createVNode (f + 2) (.vnodeRef vid) props ChildVal.nul pf dyn
               false w).2 =
             some (aid, l ++
               [(_createVNode (f + 2) (.vnodeRef vid) props ChildVal.nul pf dyn false w).1])))) ∧
    (∀ (f vid : Nat) (props : Option Props) (pf : Int) (dyn : Option (List String))
       (w : World) (cs : List ChildVal),
       vid < w.heap.length →
       (w.getNode vid).ssContent = none →
       (w.getNode vid).ssFallback = none →
       ((w.getNode vid).patchFlag = PatchFlags.HOISTED →
          ∀ cs2, (w.getNode vid).children ≠ ChildVal.arr cs2) →
       (((_createVNode (f + 2) (.vnodeRef vid) props (ChildVal.arr cs) pf dyn false w).2.getNode
            (_createVNode (f + 2) (.vnodeRef vid) props (ChildVal.arr cs) pf dyn
              false w).1).children = ChildVal.arr cs ∧
        ((_createVNode (f + 2) (.vnodeRef vid) props (ChildVal.arr cs) pf dyn false w).2.getNode
            (_createVNode (f + 2) (.vnodeRef vid) props (ChildVal.arr cs) pf dyn
              false w).1).shapeFlag =
          jsOr (w.getNode vid).shapeFlag ShapeFlags.ARRAY_CHILDREN)) := by
  constructor
  · intro f vid props pf dyn w aid l henabled hopen hvid hss hsf hnd
    rcases hstack : w.blockStack with _ | ⟨fr, rest⟩
    · rw [currentBlock, hstack] at hopen; exact absurd hopen (by simp)
    have hfr : fr = some (aid, l) := by rw [currentBlock, hstack] at hopen; exact hopen
    subst hfr
    rw [show f + 2 = (f + 1) + 1 from rfl, _createVNode_vnodeRef (f + 1),
      cloneVNode_simple f vid props true w hss hsf hnd]
    rw [alloc_fst]
    set A := (w.alloc (cloneRecordOf w vid props true)).2 with hA
    set cid := w.heap.length with hcid
    have hAn : A.getNode cid = cloneRecordOf w vid props true := by
      rw [hA, hcid]; exact getNode_alloc w _
    have hAs : A.blockStack = some (aid, l) :: rest := by
      rw [hA, blockStack_alloc, hstack]
    have hAe : A.isBlockTreeEnabled = w.isBlockTreeEnabled := enabled_alloc w _
    have hAlen : cid < A.heap.length := by
      rw [hA, heap_length_alloc, hcid]; omega
    have hC : cvnChildrenStep (f + 1) cid ChildVal.nul A = A := by
      simp [cvnChildrenStep, childTruthy]
    rw [hC]
    have hcond : 0 < A.isBlockTreeEnabled ∧ (false : Bool) = false ∧
        (currentBlock A).isSome := by
      refine ⟨by rw [hAe]; exact henabled, rfl, ?_⟩
      rw [currentBlock, hAs]
      rfl
    by_cases hcomp : jsAnd (w.getNode vid).shapeFlag ShapeFlags.COMPONENT ≠ 0
    · have hB : cvnBlockStep vid cid false A = replaceInCurrentBlock vid cid A := by
        rw [cvnBlockStep, if_pos hcond, if_pos (by rw [hAn]; exact hcomp)]
      rw [hB]
      have hRh : (replaceInCurrentBlock vid cid A).heap = A.heap :=
        heap_replaceInCurrentBlock vid cid A
      have hRn : (replaceInCurrentBlock vid cid A).getNode cid =
          cloneRecordOf w vid props true := by
        rw [getNode_congr hRh, hAn]
      have hRlen : cid < (replaceInCurrentBlock vid cid A).heap.length := by
        rw [hRh]; exact hAlen
      have hFn : ((cvnBailStep cid (replaceInCurrentBlock vid cid A)).getNode cid) =
          { cloneRecordOf w vid props true with
              patchFlag := jsOr (cloneRecordOf w vid props true).patchFlag PatchFlags.BAIL } := by
        rw [cvnBailStep, getNode_modifyNode_self _ _ _ hRlen, hRn]
      refine ⟨rfl, ?_, ?_, ?_, fun _ => ?_, fun hc => absurd hc hcomp⟩
      · rw [hFn]
        rfl
      · rw [hFn]
        rfl
      · rw [hFn]
        rfl
      · show currentBlock (cvnBailStep cid (replaceInCurrentBlock vid cid A)) = _
        have : (cvnBailStep cid (replaceInCurrentBlock vid cid A)).blockStack =
            (replaceInCurrentBlock vid cid A).blockStack := rfl
        rw [currentBlock, this]
        rw [replaceInCurrentBlock, hAs]
    · have hB : cvnBlockStep vid cid false A = pushCurrentBlock cid A := by
        rw [cvnBlockStep, if_pos hcond, if_neg (by rw [hAn]; simpa using hcomp)]
      rw [hB]
      have hRh : (pushCurrentBlock cid A).heap = A.heap := heap_pushCurrentBlock cid A
      have hRn : (pushCurrentBlock cid A).getNode cid = cloneRecordOf w vid props true := by
        rw [getNode_congr hRh, hAn]
      have hRlen : cid < (pushCurrentBlock cid A).heap.length := by
        rw [hRh]; exact hAlen
      have hFn : ((cvnBailStep cid (pushCurrentBlock cid A)).getNode cid) =
          { cloneRecordOf w vid props true with
              patchFlag := jsOr (cloneRecordOf w vid props true).patchFlag PatchFlags.BAIL } := by
        rw [cvnBailStep, getNode_modifyNode_self _ _ _ hRlen, hRn]
      refine ⟨rfl, ?_, ?_, ?_, fun hc => absurd hcomp (by simpa using hc), fun _ => ?_⟩
      · rw [hFn]
        rfl
      · rw [hFn]
        rfl
      · rw [hFn]
        rfl
      · show currentBlock (cvnBailStep cid (pushCurrentBlock cid A)) = _
        have : (cvnBailStep cid (pushCurrentBlock cid A)).blockStack =
            (pushCurrentBlock cid A).blockStack := rfl
        rw [currentBlock, this]
        rw [pushCurrentBlock, hAs]
  · intro f vid props pf dyn w cs hvid hss hsf hnd
    rw [show f + 2 = (f + 1) + 1 from rfl, _createVNode_vnodeRef (f + 1),
      cloneVNode_simple f vid props true w hss hsf hnd]
    rw [alloc_fst]
    set A := (w.alloc (cloneRecordOf w vid props true)).2 with hA
    set cid := w.heap.length with hcid
    have hAn : A.getNode cid = cloneRecordOf w vid props true := by
      rw [hA, hcid]; exact getNode_alloc w _
    have hAlen : cid < A.heap.length := by
      rw [hA, heap_length_alloc, hcid]; omega
    have hC : cvnChildrenStep (f + 1) cid (ChildVal.arr cs) A =
        A.modifyNode cid (fun n =>
          { n with children := ChildVal.arr cs
                   shapeFlag := jsOr n.shapeFlag ShapeFlags.ARRAY_CHILDREN }) := by
      simp [cvnChildrenStep, childTruthy, normalizeChildren]
    rw [hC]
    set B := A.modifyNode cid (fun n =>
      { n with children := ChildVal.arr cs
               shapeFlag := jsOr n.shapeFlag ShapeFlags.ARRAY_CHILDREN }) with hBdef
    have hBn : B.getNode cid =
        { cloneRecordOf w vid props true with
            children := ChildVal.arr cs
            shapeFlag := jsOr (cloneRecordOf w vid props true).shapeFlag
              ShapeFlags.ARRAY_CHILDREN } := by
      rw [hBdef, getNode_modifyNode_self _ _ _ hAlen, hAn]
    have hBlen : cid < B.heap.length := by
      rw [hBdef, heap_length_modifyNode]; exact hAlen
    have hDn : ((cvnBlockStep vid cid false B).getNode cid) = B.getNode cid :=
      getNode_congr (heap_cvnBlockStep vid cid false B) cid
    have hDlen : cid < (cvnBlockStep vid cid false B).heap.length := by
      rw [heap_cvnBlockStep]; exact hBlen
    have hFn : ((cvnBailStep cid (cvnBlockStep vid cid false B)).getNode cid) =
        { B.getNode cid with
            patchFlag := jsOr (B.getNode cid).patchFlag PatchFlags.BAIL } := by
      rw [cvnBailStep, getNode_modifyNode_self _ _ _ hDlen, hDn]
    rw [hFn, hBn]
    exact ⟨rfl, rfl⟩

theorem getKey_setKey (m : ObjMap) (k' k : String) (v : PVal) :
    getKey (setKey m k' v) k = if k' = k then some v else getKey m k := by
  induction m with
  | nil => simp [setKey, getKey]
  | cons e rest ih =>
      obtain ⟨k1, v1⟩ := e
      by_cases h1 : k1 = k'
      · subst h1
        by_cases h2 : k1 = k <;> simp [setKey, getKey, h2]
      · by_cases h2 : k1 = k
        · subst h2
          have h3 : k' ≠ k1 := fun hh => h1 hh.symm
          simp [setKey, getKey, h1, h3]
        · simp [setKey, getKey, h1, h2, ih]

theorem getKey_not_mem (m : ObjMap) (k : String) (h : ∀ e ∈ m, e.1 ≠ k) :
    getKey m k = none := by
  induction m with
  | nil => rfl
  | cons e rest ih =>
      obtain ⟨k1, v1⟩ := e
      have h1 : k1 ≠ k := h (k1, v1) (by simp)
      simp only [getKey, if_neg h1]
      exact ih (fun e he => h e (by simp [he]))

theorem setKey_key_mem (m : ObjMap) (k0 : String) (v0 : PVal) :
    ∀ e ∈ setKey m k0 v0, e.1 = k0 ∨ ∃ e' ∈ m, e.1 = e'.1 := by
  induction m with
  | nil =>
      intro e he
      simp [setKey] at he
      subst he
      exact Or.inl rfl
  | cons hd rest ih =>
      intro e he
      obtain ⟨k1, v1⟩ := hd
      by_cases h1 : k1 = k0
      · subst h1
        simp only [setKey, if_pos rfl] at he
        rcases List.mem_cons.mp he with he | he
        · subst he; exact Or.inl rfl
        · exact Or.inr ⟨e, by simp [he]⟩
      · simp only [setKey, if_neg h1] at he
        rcases List.mem_cons.mp he with he | he
        · subst he; exact Or.inr ⟨(k1, v1), by simp⟩
        · rcases ih e he with h | ⟨e', he', hk⟩
          · exact Or.inl h
          · exact Or.inr ⟨e', by simp [he'], hk⟩

theorem keysNodup_setKey (m : ObjMap) (k : String) (v : PVal) (h : keysNodup m) :
    keysNodup (setKey m k v) := by
  induction m with
  | nil => simp [setKey, keysNodup]
  | cons hd rest ih =>
      obtain ⟨k1, v1⟩ := hd
      rcases (List.pairwise_cons.mp h) with ⟨hhead, hrest⟩
      by_cases h1 : k1 = k
      · subst h1
        simp only [setKey, if_pos rfl]
        exact List.pairwise_cons.mpr ⟨hhead, hrest⟩
      · simp only [setKey, if_neg h1]
        refine List.pairwise_cons.mpr ⟨?_, ih hrest⟩
        intro e he
        rcases setKey_key_mem rest k v e he with hk | ⟨e', he', hk⟩
        · rw [hk]; exact h1
        · rw [hk]; exact hhead e' he'

theorem keysNodup_setAll (m src : ObjMap) (h : keysNodup m) : keysNodup (setAll m src) := by
  induction src generalizing m with
  | nil => exact h
  | cons e rest ih =>
      exact ih (setKey m e.1 e.2) (keysNodup_setKey m e.1 e.2 h)

theorem getKey_setAll (m src : ObjMap) (k : String) (h : keysNodup src) :
    getKey (setAll m src) k = firstSome (getKey src k) (getKey m k) := by
  induction src generalizing m with
  | nil => rfl
  | cons e rest ih =>
      obtain ⟨k1, v1⟩ := e
      rcases (List.pairwise_cons.mp h) with ⟨hhead, hrest⟩
      have : setAll m ((k1, v1) :: rest) = setAll (setKey m k1 v1) rest := rfl
      rw [this, ih (setKey m k1 v1) hrest]
      by_cases h2 : k1 = k
      · subst h2
        have hrnone : getKey rest k1 = none :=
          getKey_not_mem rest k1 (fun e he => (hhead e he).symm)
        simp [getKey, hrnone, getKey_setKey, firstSome]
      · simp [getKey, h2, getKey_setKey, firstSome]

theorem ne_blank_of_isOn {k : String} (h : isOn k = true) : k ≠ "" := by
  intro hh
  rw [hh] at h
  exact Bool.noConfusion h

theorem getKey_mergeOne_blank (ret : ObjMap) (e : String × PVal) :
    getKey (mergeOne ret e) "" = getKey ret "" := by
  obtain ⟨k, v⟩ := e
  simp only [mergeOne]
  split
  · split
    · rfl
    · rw [getKey_setKey]; simp
  · split
    · rw [getKey_setKey]; simp
    · split
      · next hk3 =>
          split
          · rw [getKey_setKey]
            simp [ne_blank_of_isOn hk3]
          · rfl
      · split
        · next hk4 => rw [getKey_setKey]; simp [hk4]
        · rfl

theorem getKey_mergeOne_other (ret : ObjMap) (e : String × PVal) (k : String)
    (hk1 : k ≠ "class") (hk2 : k ≠ "style") (hk3 : isOn k = false) (hk4 : k ≠ "") :
    getKey (mergeOne ret e) k = if e.1 = k then some e.2 else getKey ret k := by
  obtain ⟨k1, v⟩ := e
  simp only [mergeOne]
  split
  · next hc =>
      have hne : k1 ≠ k := by rw [hc]; exact fun hh => hk1 hh.symm
      have hck : "class" ≠ k := fun hh => hk1 hh.symm
      split
      · simp [hne]
      · rw [getKey_setKey]
        simp [hne, hck]
  · next hc1 =>
    split
    · next hc =>
        have hne : k1 ≠ k := by rw [hc]; exact fun hh => hk2 hh.symm
        have hsk : "style" ≠ k := fun hh => hk2 hh.symm
        rw [getKey_setKey]
        simp [hne, hsk]
    · next hc2 =>
      split
      · next hc3 =>
          have hne : k1 ≠ k := by
            intro hh
            rw [hh, hk3] at hc3
            exact Bool.noConfusion hc3
          split
          · rw [getKey_setKey]; simp [hne]
          · simp [hne]
      · next hc3 =>
        split
        · rw [getKey_setKey]
        · next hc4 =>
            have hc4' : k1 = "" := by
              by_cases hz : k1 = ""
              · exact hz
              · exact absurd hz hc4
            have hne : k1 ≠ k := by rw [hc4']; exact fun hh => hk4 hh.symm
            simp [hne]

theorem getKey_foldOne_other (entries : ObjMap) (ret : ObjMap) (k : String)
    (hk1 : k ≠ "class") (hk2 : k ≠ "style") (hk3 : isOn k = false) (hk4 : k ≠ "")
    (h : keysNodup entries) :
    getKey (entries.foldl mergeOne ret) k =
      firstSome (getKey entries k) (getKey ret k) := by
  induction entries generalizing ret with
  | nil => rfl
  | cons e rest ih =>
      rcases (List.pairwise_cons.mp h) with ⟨hhead, hrest⟩
      have hstep : (e :: rest).foldl mergeOne ret = rest.foldl mergeOne (mergeOne ret e) := rfl
      rw [hstep, ih (mergeOne ret e) hrest,
        getKey_mergeOne_other ret e k hk1 hk2 hk3 hk4]
      obtain ⟨k1, v1⟩ := e
      by_cases h2 : k1 = k
      · subst h2
        have hrnone : getKey rest k1 = none :=
          getKey_not_mem rest k1 (fun e2 he => (hhead e2 he).symm)
        simp [getKey, hrnone, firstSome]
      · simp [getKey, h2, firstSome]

theorem getKey_foldOne_blank (entries : ObjMap) (ret : ObjMap) :
    getKey (entries.foldl mergeOne ret) "" = getKey ret "" := by
  induction entries generalizing ret with
  | nil => rfl
  | cons e rest ih =>
      have hstep : (e :: rest).foldl mergeOne ret = rest.foldl mergeOne (mergeOne ret e) := rfl
      rw [hstep, ih (mergeOne ret e), getKey_mergeOne_blank]

theorem firstSome_none_right (a : Option PVal) : firstSome a none = a := by
  cases a <;> rfl

theorem getKey_mergeFold_blank (args : List Props) (ret : ObjMap) :
    getKey (args.foldl (fun ret p => p.entries.foldl mergeOne ret) ret) "" =
      getKey ret "" := by
  induction args generalizing ret with
  | nil => rfl
  | cons p rest ih =>
      have hstep : (p :: rest).foldl (fun ret p => p.entries.foldl mergeOne ret) ret =
          rest.foldl (fun ret p => p.entries.foldl mergeOne ret)
            (p.entries.foldl mergeOne ret) := rfl
      rw [hstep, ih, getKey_foldOne_blank]

/-- Claim C6: `mergeProps` folds mappings left to right with class values space-
concatenated (idempotent on identical strings), style objects merged with
later entries winning per declared property, handler-shaped keys accumulated
into arrays in encounter order without duplicating an identical handler
reference, every other key last-write-wins, and empty-string keys never
present in the result. -/
theorem claim_C6 :
    (getKey (mergeProps [{ entries := [("class", .str "a")] },
        { entries := [("class", .str "b")] }]).entries "class" = some (.str "a b")) ∧
    (getKey (mergeProps [{ entries := [("class", .str "a")] },
        { entries := [("class", .str "a")] }]).entries "class" = some (.str "a")) ∧
    (∀ (k : String) (g h : Nat), k ≠ "class" → k ≠ "style" → isOn k = true → g ≠ h →
       getKey (mergeProps [{ entries := [(k, .fn g)] },
           { entries := [(k, .fn h)] }]).entries k = some (.arr 0 [.fn g, .fn h])) ∧
    (∀ (k : String) (g : Nat), k ≠ "class" → k ≠ "style" → isOn k = true →
       getKey (mergeProps [{ entries := [(k, .fn g)] },
           { entries := [(k, .fn g)] }]).entries k = some (.fn g)) ∧
    (∀ (i1 i2 : Nat) (s1 s2 : ObjMap),
       getKey (mergeProps [{ entries := [("style", .obj i1 s1)] },
           { entries := [("style", .obj i2 s2)] }]).entries "style" =
         some (.obj 0 (setAll (setAll [] (setAll [] s1)) s2))) ∧
    (∀ (s1 s2 : ObjMap) (k : String), keysNodup s1 → keysNodup s2 →
       getKey (setAll (setAll [] (setAll [] s1)) s2) k =
         firstSome (getKey s2 k) (getKey s1 k)) ∧
    (∀ (m1 m2 : Props) (k : String), k ≠ "class" → k ≠ "style" → isOn k = false →
       k ≠ "" → keysNodup m1.entries → keysNodup m2.entries →
       getKey (mergeProps [m1, m2]).entries k =
         firstSome (getKey m2.entries k) (getKey m1.entries k)) ∧
    (∀ (args : List Props), getKey (mergeProps args).entries "" = none) := by
  refine ⟨rfl, rfl, ?_, ?_, ?_, ?_, ?_, ?_⟩
  · intro k g h hk1 hk2 hk3 hgh
    have hbeq : (g == h) = false := by simpa using hgh
    simp [mergeProps, mergeOne, getKey, setKey, truthy, jsEq, isArrayP, concatVals,
      svzEq, hk1, hk2, hk3, hbeq]
  · intro k g hk1 hk2 hk3
    simp [mergeProps, mergeOne, getKey, setKey, truthy, jsEq, isArrayP, concatVals,
      svzEq, hk1, hk2, hk3]
  · intro i1 i2 s1 s2
    simp [mergeProps, mergeOne, getKey, setKey, normalizeStyle,
      normalizeStyle.normStyleList]
  · intro s1 s2 k hs1 hs2
    have hX : keysNodup (setAll ([] : ObjMap) s1) :=
      keysNodup_setAll [] s1 (by simp [keysNodup])
    have hXX : keysNodup (setAll ([] : ObjMap) (setAll ([] : ObjMap) s1)) :=
      keysNodup_setAll [] _ (by simp [keysNodup])
    rw [getKey_setAll _ s2 k hs2]
    have hnil : getKey ([] : ObjMap) k = none := rfl
    have h1 : getKey (setAll ([] : ObjMap) (setAll ([] : ObjMap) s1)) k =
        getKey (setAll ([] : ObjMap) s1) k := by
      rw [getKey_setAll [] _ k hX, hnil, firstSome_none_right]
    have h2 : getKey (setAll ([] : ObjMap) s1) k = getKey s1 k := by
      rw [getKey_setAll [] s1 k hs1, hnil, firstSome_none_right]
    rw [h1, h2]
  · intro m1 m2 k hk1 hk2 hk3 hk4 hn1 hn2
    have hstep : (mergeProps [m1, m2]).entries =
        m2.entries.foldl mergeOne (m1.entries.foldl mergeOne []) := rfl
    rw [hstep, getKey_foldOne_other _ _ k hk1 hk2 hk3 hk4 hn2,
      getKey_foldOne_other _ _ k hk1 hk2 hk3 hk4 hn1]
    have hnil : getKey ([] : ObjMap) k = none := rfl
    rw [hnil, firstSome_none_right]
  · intro args
    have hstep : (mergeProps args).entries =
        args.foldl (fun ret p => p.entries.foldl mergeOne ret) [] := rfl
    rw [hstep, getKey_mergeFold_blank]
    rfl

/-- Claim C7, counterexample to the literal statement: mounting a second app
into an occupied container overwrites the first mount's container back-
reference instead of leaving it untouched, and after a successful unmount
the app is still flagged as mounted. -/
theorem claim_C7_counterexample :
    c7World2.vw.warnings = [] ∧
    (c7World2.getContainer 0).vueApp = some 0 ∧
    (c7World2.getApp 0).isMounted = true ∧
    c7World4.vw.warnings = [WarnKind.containerOccupied] ∧
    (c7World4.getContainer 0).vueApp = some 1 ∧
    (c7World4.getApp 1).isMounted = true ∧
    (c7World5.getApp 0).isMounted = true ∧
    (c7World5.getContainer 0).vueApp = none := by
  exact ⟨rfl, rfl, rfl, rfl, rfl, rfl, rfl, rfl⟩

/-- Claim C7 (amended): mounting an already-mounted app only warns and changes
nothing else; mounting an unmounted app into an occupied container warns but
still proceeds, overwriting the container's app back-reference, contrary to
the literal spec text; unmounting a never-mounted app only warns; a
successful unmount renders nothing, clears the container back-reference — so
a later mount into the same container is clean, as the concrete remount run
shows — but never resets the closed-over mounted flag. -/
theorem claim_C7 :
    (∀ (aw : AppWorld) (aid cid : Nat), (aw.getApp aid).isMounted = true →
       mount aid cid aw = aw.warnA .appAlreadyMounted) ∧
    (∀ (aw : AppWorld) (aid cid : Nat), (aw.getApp aid).isMounted = false →
       aid < aw.apps.length → cid < aw.containers.length →
       ((aw.getContainer cid).vueApp).isSome = true →
       ((mount aid cid aw).getContainer cid).vueApp = some aid ∧
       ((mount aid cid aw).getApp aid).isMounted = true ∧
       ((mount aid cid aw).getApp aid).container = some cid) ∧
    (∀ (aw : AppWorld) (aid : Nat), (aw.getApp aid).isMounted = false →
       unmount aid aw = aw.warnA .unmountNotMounted) ∧
    (∀ (aw : AppWorld) (aid c : Nat), (aw.getApp aid).isMounted = true →
       (aw.getApp aid).container = some c → aid < aw.apps.length →
       c < aw.containers.length →
       ((unmount aid aw).getContainer c).rendered = none ∧
       ((unmount aid aw).getContainer c).vueApp = none ∧
       ((unmount aid aw).getApp aid).isMounted = true ∧
       (unmount aid aw).vw.warnings = aw.vw.warnings) ∧
    (c7World6.vw.warnings = [] ∧ (c7World6.getContainer 0).vueApp = some 1 ∧
     (c7World6.getApp 1).isMounted = true) := by
  refine ⟨?_, ?_, ?_, ?_, rfl, rfl, rfl⟩
  · intro aw aid cid h
    simp [mount, h]
  · intro aw aid cid h1 h2 hcid h3
    simp_all [mount, AppWorld.getApp, AppWorld.setApp, AppWorld.getContainer,
      AppWorld.setContainer, AppWorld.warnA, getD_set_self, List.length_set]
  · intro aw aid h
    simp [unmount, h]
  · intro aw aid c h1 hcont halen hclen
    simp_all [unmount, AppWorld.getApp, AppWorld.setApp, AppWorld.getContainer,
      AppWorld.setContainer, AppWorld.warnA, getD_set_self, List.length_set]

/-- Claim C7, witness: all four universal parts applied to the concrete mount
and unmount scenario worlds. -/
theorem claim_C7_witness :
    (mount 0 0 c7World2 = c7World2.warnA .appAlreadyMounted) ∧
    ((mount 1 0 c7World3).getContainer 0).vueApp = some 1 ∧
    (unmount 0 c7World1 = c7World1.warnA .unmountNotMounted) ∧
    ((unmount 0 c7World2).getApp 0).isMounted = true := by
  refine ⟨claim_C7.1 c7World2 0 0 rfl,
    (claim_C7.2.1 c7World3 1 0 rfl (by decide) (by decide) rfl).1,
    claim_C7.2.2.1 c7World1 0 rfl,
    (claim_C7.2.2.2.1 c7World2 0 0 rfl rfl (by decide) (by decide)).2.2.1⟩

/-- Claim C1: while block tracking is enabled and a collecting block is open, a
vnode built by `createBaseVNode` is appended to the current collecting list
iff it is not itself a block node, carries a positive patch flag or a
component shape flag, and its patch flag is not solely the hydration-events
bit; concretely, opening a block, building three children with patch flags
TEXT, 0 and CLASS and closing the block leaves exactly the first and third
children, in construction order, in the block root's `dynamicChildren`. -/
theorem claim_C1 :
    (∀ (f : Nat) (t : VType) (props : Option Props) (children : ChildVal)
       (pf : Int) (dyn : Option (List String)) (sf : Int) (ibn nf : Bool)
       (w : World) (aid : Nat) (l : List Nat),
       0 < w.isBlockTreeEnabled →
       currentBlock w = some (aid, l) →
       (nf = true → jsAnd sf ShapeFlags.TELEPORT = 0) →
       ((createBaseVNode (f + 1) t props children pf dyn sf ibn nf w).2.getNode
           (createBaseVNode (f + 1) t props children pf dyn sf ibn nf w).1).patchFlag = pf ∧
       currentBlock (createBaseVNode (f + 1) t props children pf dyn sf ibn nf w).2 =
         (if ibn = false ∧ (0 < pf ∨ jsAnd sf ShapeFlags.COMPONENT ≠ 0) ∧
             pf ≠ PatchFlags.HYDRATE_EVENTS
          then some (aid,
            l ++ [(createBaseVNode (f + 1) t props children pf dyn sf ibn nf w).1])
          else some (aid, l))) ∧
    (c1n1.1 = 0 ∧ c1n2.1 = 1 ∧ c1n3.1 = 2 ∧ c1Root.1 = 3 ∧
     (c1Root.2.getNode 3).dynamicChildren = .arrDC 1 [0, 2]) := by
  refine ⟨?_, rfl, rfl, rfl, rfl, rfl⟩
  intro f t props children pf dyn sf ibn nf w aid l henabled hopen hnf
  exact createBaseVNode_track_iff f t props children pf dyn sf ibn nf w aid l henabled hopen hnf

/-- Claim C1, witness: the universal part applied to a single child with patch
flag 1 built under a freshly opened block. -/
theorem claim_C1_witness :
    0 < c1World.isBlockTreeEnabled ∧ currentBlock c1World = some (1, []) ∧
    currentBlock (createBaseVNode 1 (.el "span") none .nul 1 none 1 false false
        c1World).2 = some (1, [0]) := by
  have h := claim_C1.1 0 (.el "span") none .nul 1 none 1 false false c1World 1
    [] (by decide) rfl (fun hh => Bool.noConfusion hh)
  refine ⟨by decide, rfl, ?_⟩
  rw [h.2]
  rfl

/-- Claim C2, witness: closing a block over one tracked child attaches the list
of that child. -/
theorem claim_C2_witness :
    (setupBlock 0 c1n1.2).blockStack.length = 0 ∧
    ((setupBlock 0 c1n1.2).getNode 0).dynamicChildren = .arrDC 1 [0] := by
  have h := claim_C2 c1n1.2 0 (some (1, [0])) [] rfl (by decide) (by decide)
  exact ⟨h.1, h.2.1.trans rfl⟩

/-- Claim C3, witness: the amended statement applied to the concrete element-
clone scenario. -/
theorem claim_C3_witness :
    (_createVNode 3 (.vnodeRef 0) none .nul 0 none false c3OrigWorld).1 = 1 ∧
    currentBlock (_createVNode 3 (.vnodeRef 0) none .nul 0 none false c3OrigWorld).2 =
      some (1, [0, 1]) := by
  have h := claim_C3.1 1 0 none 0 none c3OrigWorld 1 [0] (by decide) rfl (by decide)
    rfl rfl (fun hh => absurd hh (by decide))
  refine ⟨h.1, ?_⟩
  have h2 := h.2.2.2.2.2 (by decide)
  rw [h2, h.1]
  rfl

/-- Claim C4, witness: the non-fragment non-hoisted branch applied to a TEXT-
flagged element node. -/
theorem claim_C4_witness :
    ((cloneVNode 1 0 (some {}) false c3OrigWorld).2.getNode
        (cloneVNode 1 0 (some {}) false c3OrigWorld).1).patchFlag =
      jsOr (c3OrigWorld.getNode 0).patchFlag PatchFlags.FULL_PROPS :=
  claim_C4.2.2.1 0 0 {} false c3OrigWorld (by decide) (by decide)

/-- Claim C5, witness: an unmounted node is returned unchanged and a mounted
non-memoized node is cloned to a fresh index with its fields preserved. -/
theorem claim_C5_witness :
    (normalizeVNode 1 (.vnode 0) initWorld = (0, initWorld)) ∧
    (normalizeVNode 1 (.vnode 0) c5MountedWorld).1 ≠ 0 ∧
    ((normalizeVNode 1 (.vnode 0) c5MountedWorld).2.getNode
        (normalizeVNode 1 (.vnode 0) c5MountedWorld).1).el = some 5 := by
  have h1 := claim_C5.1 1 0 initWorld (Or.inl ⟨rfl, by decide⟩)
  have h2 := claim_C5.2 0 0 5 c5MountedWorld rfl rfl (by decide) rfl rfl
    (fun hh => absurd hh (by decide)) rfl
  exact ⟨h1, h2.1, h2.2.2.2.2.2.2.2.2⟩

/-- Claim C6, witness: two distinct onClick handlers accumulate into an array in
encounter order. -/
theorem claim_C6_witness :
    getKey (mergeProps [{ entries := [("onClick", .fn 7)] },
        { entries := [("onClick", .fn 8)] }]).entries "onClick" =
      some (.arr 0 [.fn 7, .fn 8]) :=
  claim_C6.2.2.1 "onClick" 7 8 (by decide) (by decide) rfl (by decide)

/-- Claim C8, witness: the universal part applied to the concretely constructed
NaN-keyed node. -/
theorem claim_C8_witness :
    (isSameVNodeType [] (nanKeyWorld.getNode 0) (nanKeyWorld.getNode 0)).1 = false :=
  claim_C8.1 (nanKeyWorld.getNode 0) rfl

/-- Claim C9, witness: the pop-balance part on a one-frame stack and the nested-
block part on a parent block opened over the initial world. -/
theorem claim_C9_witness :
    ((setupBlock 0 c1World).blockStack.length + 1 = c1World.blockStack.length) ∧
    (createElementBlock 1 (.el "div") none .nul 0 none none
        (openBlock false c1World)).2.blockStack =
      some (1, [(createElementBlock 1 (.el "div") none .nul 0 none none
        (openBlock false c1World)).1]) :: [] := by
  refine ⟨claim_C9.2.1 0 c1World (by decide), ?_⟩
  have h := (claim_C9.2.2 0 (.el "div") none .nul 0 none none c1World).2.2.2 1 [] []
    rfl (by decide)
  exact h

/-- Claim C10, witness: the amended statement applied to a mounted element node
with a consistent null key. -/
theorem claim_C10_witness :
    ((cloneVNode 1 0 none false c5MountedWorld).2.getNode
        (cloneVNode 1 0 none false c5MountedWorld).1).key =
      (c5MountedWorld.getNode 0).key ∧
    (isSameVNodeType []
        ((cloneVNode 1 0 none false c5MountedWorld).2.getNode
          (cloneVNode 1 0 none false c5MountedWorld).1)
        (c5MountedWorld.getNode 0)).1 = true := by
  have h := claim_C10 0 0 false c5MountedWorld rfl
    (fun hh => PVal.noConfusion (show PVal.nul = PVal.nan from hh))
  exact ⟨h.2.1, h.2.2.2.2.2⟩
